import Mathlib

/-! RedoKube: the mock pipeline and the spec registry

A shallow embedding of `pkg/mockers/mocker.go` (document normalizer, example
synthesizer, response augmenter) and of `Server.RegisterSpec` from
`pkg/redoc/server.go`, with the properties of the specification stated and
proved over it.

Conventions of the embedding

* A Go `interface{}` holding decoded JSON/YAML is a `Value`.
* A Go `map[string]interface{}` is an association list `Obj`; reading `m[k]`
  with the comma-ok form is `mapGet`, writing `m[k] = v` is `mapSet`.  A Go map
  holds a key once, which theorems that walk a map assume as `Distinct`.
* `for k, v := range m` visits the entries in list order (Go leaves the order
  open; the list order is one admissible order).
* The global random source of gofakeit is an explicit state `Rng` threaded
  through every generator call.
* `$ref` chains are followed without any guard in the source, so the
  synthesizer takes a recursion budget and answers `none` when it is used up.
-/

namespace RedoKube

/-! ## Document trees -/

/-- Decoded JSON/YAML value, the dynamic content of a Go `interface{}`. -/
inductive Value where
  | null
  | bool (b : Bool)
  | num (n : Int)
  | str (s : String)
  | arr (xs : List Value)
  | obj (kvs : List (String × Value))

/-- Go `map[string]interface{}`. -/
abbrev Obj := List (String × Value)

/-- Comma-ok read `v, ok := m[k]`. -/
def mapGet {α : Type} (k : String) : List (String × α) → Option α
  | [] => none
  | (k', v) :: rest => if k' = k then some v else mapGet k rest

/-- Assignment `m[k] = v`: replaces the entry of `k` or adds one. -/
def mapSet {α : Type} (k : String) (v : α) : List (String × α) → List (String × α)
  | [] => [(k, v)]
  | (k', v') :: rest => if k' = k then (k, v) :: rest else (k', v') :: mapSet k v rest

/-- Keys of a map. -/
def keys {α : Type} (m : List (String × α)) : List String := m.map Prod.fst

/-- A map holds each key once. -/
def Distinct {α : Type} (m : List (String × α)) : Prop := (keys m).Nodup

instance {α : Type} (m : List (String × α)) : Decidable (Distinct m) := by
  unfold Distinct; infer_instance

/-- Plain index expression `m[k]`: the zero value `nil` when the key is absent. -/
def idx (m : Obj) (k : String) : Value := (mapGet k m).getD Value.null

/-- Type assertion `v.(map[string]interface{})` on an optional read. -/
def asObj : Option Value → Option Obj
  | some (Value.obj m) => some m
  | _ => none

/-- Type assertion `v.(string)` on an optional read. -/
def asStr : Option Value → Option String
  | some (Value.str s) => some s
  | _ => none

/-- Value reached from `v` by following a chain of keys through nested mappings. -/
def getPath : List String → Value → Option Value
  | [], v => some v
  | k :: ks, Value.obj m =>
    match mapGet k m with
    | some v => getPath ks v
    | none => none
  | _ :: _, _ => none

/-! ## Strings (package `strings`, on the characters of the string) -/

/-- Whether `p` is a prefix of `l`. -/
def prefixOf : List Char → List Char → Bool
  | [], _ => true
  | _ :: _, [] => false
  | a :: p, b :: l => a == b && prefixOf p l

/-- Whether `p` occurs in `l`. -/
def infixOf (p : List Char) : List Char → Bool
  | [] => prefixOf p []
  | c :: l => prefixOf p (c :: l) || infixOf p l

/-- Function `strings.HasPrefix`. -/
def hasPrefix (s p : String) : Bool := prefixOf p.toList s.toList

/-- Function `strings.Contains`. -/
def contains (s sub : String) : Bool := infixOf sub.toList s.toList

/-- Last element of `strings.Split(ref, "/")`: the characters after the last `/`. -/
def lastSegment : List Char → List Char → List Char
  | acc, [] => acc
  | acc, c :: l => if c = '/' then lastSegment [] l else lastSegment (acc ++ [c]) l

/-- Source `resolveRef`: `parts := strings.Split(ref, "/"); parts[len(parts)-1]`. -/
def resolveRef (ref : String) : String := String.mk (lastSegment [] ref.toList)

/-- Source `convertRefPath`: a leading `#/definitions/` becomes `#/components/schemas/`. -/
def convertRefPath (ref : String) : String :=
  if hasPrefix ref "#/definitions/" then
    "#/components/schemas/" ++ String.mk (ref.toList.drop "#/definitions/".length)
  else ref

/-! ## Libraries: gofakeit, `strings.ToLower`, the JSON and YAML codecs -/

/-- State of gofakeit's global random source. -/
abbrev Rng := Nat

/-- String generators of gofakeit that the mocker calls. -/
inductive Gen where
  | date (layout : String)
  | uuid
  | email
  | firstName
  | lastName
  | name
  | city
  | country
  | phone
  | zip
  | address
  | randomString (choices : List String)
  | sentence (wordCount : Nat)
  | url
  | word
  | regex (pattern : String)

/-- Library code outside the repository, taken as a parameter of the model. -/
structure Lib where
  /-- Function `strings.ToLower`. -/
  toLower : String → String
  /-- Raw draw of the random source in a given state. -/
  raw : Rng → Nat
  /-- State of the random source after one raw draw. -/
  next : Rng → Rng
  /-- A gofakeit string generator: its output and the state it leaves. -/
  gen : Gen → Rng → String × Rng
  /-- Function `json.Unmarshal` into a `map[string]interface{}` (`none`: error). -/
  jsonUnmarshal : String → Option Obj
  /-- Function `yaml.Unmarshal` into a `map[string]interface{}` (`none`: error). -/
  yamlUnmarshal : String → Option Obj
  /-- Function `yaml.Marshal`. -/
  yamlMarshal : Obj → Except String String

/-- Modelled from the spec: `gofakeit.Number(min, max)`, a function of the
gofakeit library, whose code is not among the sources of the repository.  The
specification (section 4.2) gives `Number(1, 1000)` as a random integer in
`[1, 1000]`.  Equal bounds give that bound without a draw, swapped bounds are
put in order, otherwise the result is `rand.Intn(max-min+1) + min`, where
`Intn n` is a value below `n` taken from one raw draw. -/
def Number (L : Lib) (min max : Int) (s : Rng) : Int × Rng :=
  if min = max then (min, s)
  else
    let lo := if min > max then max else min
    let hi := if min > max then min else max
    (((L.raw s % (hi - lo + 1).toNat : Nat) : Int) + lo, L.next s)

/-- Library `gofakeit.Bool()`: `Number(0, 1) == 1`. -/
def Bool_ (L : Lib) (s : Rng) : Bool × Rng :=
  let r := Number L 0 1 s
  (decide (r.1 = 1), r.2)

/-- A string generator call whose result is stored as an `interface{}`. -/
def genValue (L : Lib) (g : Gen) (s : Rng) : Value × Rng :=
  let r := L.gen g s
  (Value.str r.1, r.2)

/-! ## Example synthesizer -/

/-- Source `generateFakeValue`: the generator is chosen by the first matching
case of the `switch` on the lower-cased field name. -/
def generateFakeValue (L : Lib) (fieldName : String) (s : Rng) : Value × Rng :=
  let field := L.toLower fieldName
  if contains field "date" then genValue L (Gen.date "2006-01-02") s
  else if contains field "time" then genValue L (Gen.date "15:04:05") s
  else if contains field "uuid" || contains field "id" then genValue L Gen.uuid s
  else if contains field "email" then genValue L Gen.email s
  else if contains field "name" && contains field "first" then genValue L Gen.firstName s
  else if contains field "name" && contains field "last" then genValue L Gen.lastName s
  else if contains field "name" && !contains field "first" && !contains field "last" then
    genValue L Gen.name s
  else if contains field "city" then genValue L Gen.city s
  else if contains field "country" then genValue L Gen.country s
  else if contains field "phone" then genValue L Gen.phone s
  else if contains field "postal" || contains field "zip" then genValue L Gen.zip s
  else if contains field "address" then genValue L Gen.address s
  else if contains field "status" then
    genValue L (Gen.randomString ["active", "inactive", "pending"]) s
  else if contains field "description" then genValue L (Gen.sentence 5) s
  else if contains field "title" then genValue L (Gen.sentence 3) s
  else if contains field "url" || contains field "link" then genValue L Gen.url s
  else genValue L Gen.word s

/-- The field-name heuristic table in the words of the specification (section
4.2), in its priority order: a test on the lower-cased field name and the
generator of the rule. -/
def heuristicTable : List ((String → Bool) × Gen) :=
  [(fun f => contains f "date", Gen.date "2006-01-02"),
   (fun f => contains f "time", Gen.date "15:04:05"),
   (fun f => contains f "uuid" || contains f "id", Gen.uuid),
   (fun f => contains f "email", Gen.email),
   (fun f => contains f "name" && contains f "first", Gen.firstName),
   (fun f => contains f "name" && contains f "last", Gen.lastName),
   (fun f => contains f "name" && !contains f "first" && !contains f "last", Gen.name),
   (fun f => contains f "city", Gen.city),
   (fun f => contains f "country", Gen.country),
   (fun f => contains f "phone", Gen.phone),
   (fun f => contains f "postal" || contains f "zip", Gen.zip),
   (fun f => contains f "address", Gen.address),
   (fun f => contains f "status", Gen.randomString ["active", "inactive", "pending"]),
   (fun f => contains f "description", Gen.sentence 5),
   (fun f => contains f "title", Gen.sentence 3),
   (fun f => contains f "url" || contains f "link", Gen.url)]

/-- The first rule of a table whose test holds wins; without one, the default
is a single generic word. -/
def firstMatch : List ((String → Bool) × Gen) → String → Gen
  | [], _ => Gen.word
  | (test, g) :: rest, field => if test field then g else firstMatch rest field

/-- Loop `for k, v := range m` whose body either stores one value under `k` in
the map being built (`some r`) or leaves the map alone (`continue`, a failed
guard).  The outer `none` is a body that used up the recursion budget. -/
def rangeLoop (body : String → Value → Rng → Option (Option Value × Rng)) :
    Obj → Obj → Rng → Option (Obj × Rng)
  | [], acc, s => some (acc, s)
  | (k, v) :: rest, acc, s =>
    match body k v s with
    | none => none
    | some (none, s') => rangeLoop body rest acc s'
    | some (some r, s') => rangeLoop body rest (mapSet k r acc) s'

/-- The three places of `generateFakeObject` that follow a `$ref`: when `holder`
has a string `$ref` whose last segment names a mapping in `defs`, synthesize that
schema (`twice`: two objects in a sequence, for array items), else store nothing. -/
def followRef (recur : Obj → Obj → Rng → Option (Obj × Rng)) (twice : Bool)
    (holder defs : Obj) (s : Rng) : Option (Option Value × Rng) :=
  match asStr (mapGet "$ref" holder) with
  | none => some (none, s)
  | some ref =>
    match mapGet (resolveRef ref) defs with
    | some (Value.obj subDef) =>
      match recur subDef defs s with
      | none => none
      | some (o1, s1) =>
        if twice then
          match recur subDef defs s1 with
          | none => none
          | some (o2, s2) => some (some (Value.arr [Value.obj o1, Value.obj o2]), s2)
        else some (some (Value.obj o1), s1)
    | _ => some (none, s)

/-- Body of the inner loop of the `object` case: a property of an inline object. -/
def nestedProperty (L : Lib) (propKey : String) (propVal : Value) (s : Rng) :
    Option (Option Value × Rng) :=
  match propVal with
  | Value.obj propField =>
    if asStr (mapGet "type" propField) = some "string" then
      let r := generateFakeValue L propKey s
      some (some r.1, r.2)
    else
      let r := genValue L Gen.word s
      some (some r.1, r.2)
  | _ => some (none, s)

/-- Body of the loop of `generateFakeObject` over `props`; `recur` is the
recursive call of `generateFakeObject`. -/
def fakeProperty (L : Lib) (recur : Obj → Obj → Rng → Option (Obj × Rng)) (defs : Obj)
    (key : String) (val : Value) (s : Rng) : Option (Option Value × Rng) :=
  match val with
  | Value.obj field =>
    let fieldType := (asStr (mapGet "type" field)).getD ""
    if fieldType = "string" then
      let r := generateFakeValue L key s
      some (some r.1, r.2)
    else if fieldType = "integer" ∨ fieldType = "number" then
      let r := Number L 1 1000 s
      some (some (Value.num r.1), r.2)
    else if fieldType = "boolean" then
      let r := Bool_ L s
      some (some (Value.bool r.1), r.2)
    else if fieldType = "array" then
      match asObj (mapGet "items" field) with
      | none => some (none, s)
      | some items =>
        let itemType := (asStr (mapGet "type" items)).getD ""
        if itemType = "string" then
          let r1 := generateFakeValue L key s
          let r2 := generateFakeValue L key r1.2
          some (some (Value.arr [r1.1, r2.1]), r2.2)
        else if itemType = "number" ∨ itemType = "integer" then
          let r1 := Number L 1 1000 s
          let r2 := Number L 1 1000 r1.2
          some (some (Value.arr [Value.num r1.1, Value.num r2.1]), r2.2)
        else if itemType = "boolean" then
          let r1 := Bool_ L s
          let r2 := Bool_ L r1.2
          some (some (Value.arr [Value.bool r1.1, Value.bool r2.1]), r2.2)
        else followRef recur true items defs s
    else if fieldType = "object" then
      match asObj (mapGet "properties" field) with
      | some props =>
        match rangeLoop (nestedProperty L) props [] s with
        | none => none
        | some (nestedObj, s') => some (some (Value.obj nestedObj), s')
      | none => followRef recur false field defs s
    else followRef recur false field defs s
  | _ => some (none, s)

/-- Source `generateFakeObject`.  The first argument bounds the depth of the
calls made through `$ref`; the source has no such bound and does not return on
a cyclic schema. -/
def generateFakeObject (L : Lib) : Nat → Obj → Obj → Rng → Option (Obj × Rng)
  | 0, _, _, _ => none
  | fuel + 1, def_, defs, s =>
    match asObj (mapGet "properties" def_) with
    | none => some ([("example", Value.str "No properties found")], s)
    | some props => rangeLoop (fakeProperty L (generateFakeObject L fuel) defs) props [] s

/-! ## Document normalizer and response augmenter (`MockOpenAPISpec`) -/

/-- Test `version, ok := swagger["openapi"].(string); ok && strings.HasPrefix(version, "3.")`. -/
def isOpenAPI3 (swagger : Obj) : Bool :=
  match asStr (mapGet "openapi" swagger) with
  | some version => hasPrefix version "3."
  | none => false

/-- Lines 31-59 of `MockOpenAPISpec`: the map `openapi` after the version check.
A 3.x document is taken as it is; otherwise a new map gets `openapi`, `info`,
`servers` when `host` is a string, `components` when `definitions` is a mapping. -/
def normalize (swagger : Obj) : Obj :=
  if isOpenAPI3 swagger then swagger
  else
    let o1 := mapSet "openapi" (Value.str "3.1.0") []
    let o2 := mapSet "info" (idx swagger "info") o1
    let o3 :=
      match asStr (mapGet "host" swagger) with
      | some host =>
        let basePath :=
          match asStr (mapGet "basePath" swagger) with
          | some bp => bp
          | none => "/"
        mapSet "servers"
          (Value.arr [Value.obj [("url", Value.str ("https://" ++ host ++ basePath))]]) o2
      | none => o2
    match asObj (mapGet "definitions" swagger) with
    | some defsRaw => mapSet "components" (Value.obj [("schemas", Value.obj defsRaw)]) o3
    | none => o3

/-- Lines 61-69: the schema registry (`nil`, read as empty, when none is found). -/
def schemasOf (swagger openapi : Obj) : Obj :=
  match asObj (mapGet "components" openapi) with
  | some components =>
    match asObj (mapGet "schemas" components) with
    | some s => s
    | none => []
  | none =>
    match asObj (mapGet "definitions" swagger) with
    | some defsRaw => defsRaw
    | none => []

/-- Lines 73-84: `rawPaths`, from `swagger`, else from `openapi`, else empty. -/
def rawPathsOf (swagger openapi : Obj) : Obj :=
  match asObj (mapGet "paths" swagger) with
  | some p => p
  | none =>
    match asObj (mapGet "paths" openapi) with
    | some p => p
    | none => []

/-- The `content` attached to a successful response (lines 136-147). -/
def successContent (ref : String) (example_ : Obj) : Value :=
  Value.obj [("application/json", Value.obj
    [("schema", Value.obj [("$ref", Value.str (convertRefPath ref))]),
     ("examples", Value.obj [("auto_example", Value.obj [("value", Value.obj example_)])])])]

/-- The `content` attached to any other response (lines 153-165). -/
def errorContent (message errorCode : String) : Value :=
  Value.obj [("application/json", Value.obj
    [("examples", Value.obj [("auto_example", Value.obj
      [("value", Value.obj [("message", Value.str message),
                            ("errorCode", Value.str errorCode)])])])])]

/-- Body of the loop over `resp` (lines 113-169): the new response stored under
`statusCode`, or nothing when the loop `continue`s. -/
def mockResponse (L : Lib) (fuel : Nat) (schemas : Obj) (statusCode : String)
    (respVal : Value) (s : Rng) : Option (Option Value × Rng) :=
  match respVal with
  | Value.obj response =>
    let newResp : Obj := mapSet "description" (idx response "description") []
    if statusCode = "200" ∨ statusCode = "201" then
      match asObj (mapGet "schema" response) with
      | some schema =>
        match asStr (mapGet "$ref" schema) with
        | some ref =>
          match mapGet (resolveRef ref) schemas with
          | some (Value.obj defMap) =>
            match generateFakeObject L fuel defMap schemas s with
            | none => none
            | some (example_, s') =>
              some (some (Value.obj (mapSet "content" (successContent ref example_) newResp)), s')
          | some _ => some (none, s)
          | none => some (some (Value.obj newResp), s)
        | none => some (some (Value.obj newResp), s)
      | none => some (some (Value.obj newResp), s)
    else
      let m := L.gen (Gen.sentence 5) s
      let e := L.gen (Gen.regex "ERR_[0-9]\x7b3\x7d") m.2
      some (some (Value.obj (mapSet "content" (errorContent m.1 e.1) newResp)), e.2)
  | _ => some (none, s)

/-- Body of the copy loop (lines 105-109): every key but `responses`. -/
def copyField (k : String) (v : Value) (s : Rng) : Option (Option Value × Rng) :=
  if k ≠ "responses" then some (some v, s) else some (none, s)

/-- Body of the loop over `pathItem` (lines 95-174): the new method stored under
`methodKey`, or nothing when the entry is not a mapping. -/
def mockMethod (L : Lib) (fuel : Nat) (schemas : Obj) (_methodKey : String)
    (methodVal : Value) (s : Rng) : Option (Option Value × Rng) :=
  match methodVal with
  | Value.obj method =>
    match rangeLoop copyField method [] s with
    | none => none
    | some (newMethod, s1) =>
      let resp : Obj := (asObj (mapGet "responses" method)).getD []
      match rangeLoop (mockResponse L fuel schemas) resp [] s1 with
      | none => none
      | some (responses, s2) =>
        some (some (Value.obj (mapSet "responses" (Value.obj responses) newMethod)), s2)
  | _ => some (none, s)

/-- Body of the loop over `rawPaths` (lines 86-176): the new path item stored
under `pathKey`, or nothing when the entry is not a mapping. -/
def mockPathItem (L : Lib) (fuel : Nat) (schemas : Obj) (_pathKey : String)
    (pathVal : Value) (s : Rng) : Option (Option Value × Rng) :=
  match pathVal with
  | Value.obj pathItem =>
    match rangeLoop (mockMethod L fuel schemas) pathItem [] s with
    | none => none
    | some (newPathItem, s') => some (some (Value.obj newPathItem), s')
  | _ => some (none, s)

/-- Lines 29-177 of `MockOpenAPISpec`: from the decoded map `swagger` and the
state `s0` of the random source after `gofakeit.Seed(0)` to the map `openapi`
that is encoded.  The result is `none` when synthesis used up `fuel`. -/
def mockTree (L : Lib) (fuel : Nat) (swagger : Obj) (s0 : Rng) : Option (Obj × Rng) :=
  let openapi := normalize swagger
  let schemas := schemasOf swagger openapi
  let rawPaths := rawPathsOf swagger openapi
  match rangeLoop (mockPathItem L fuel schemas) rawPaths [] s0 with
  | none => none
  | some (paths, s') => some (mapSet "paths" (Value.obj paths) openapi, s')

/-- Lines 15-25: JSON first, YAML when JSON fails. -/
def parseSpec (L : Lib) (specContent : String) : Option Obj :=
  match L.jsonUnmarshal specContent with
  | some swagger => some swagger
  | none => L.yamlUnmarshal specContent

/-- Source `MockOpenAPISpec`.  The outer `none` is a synthesis that used up
`fuel`; otherwise the Go result `(string, error)` as an `Except`. -/
def MockOpenAPISpec (L : Lib) (fuel : Nat) (s0 : Rng) (specContent : String) :
    Option (Except String String) :=
  match parseSpec L specContent with
  | none => some (Except.error "error parsing OpenAPI spec (neither valid JSON nor YAML)")
  | some swagger =>
    match mockTree L fuel swagger s0 with
    | none => none
    | some (openapi, _) =>
      match L.yamlMarshal openapi with
      | Except.error e => some (Except.error ("error encoding modified OpenAPI spec: " ++ e))
      | Except.ok out => some (Except.ok out)

/-! ## Spec registry (`Server.RegisterSpec`) -/

/-- Result of `loads.Spec`, kept as a handle; its content is never inspected. -/
abbrev Document := String

/-- Source `SpecInfo`; `Document` is `nil` when the spec could not be loaded. -/
structure SpecInfo where
  Title : String
  SpecPath : String
  SpecURL : String
  Document : Option Document
  deriving DecidableEq, Repr

/-- The fields of the resource `OpenAPISpec` that `RegisterSpec` reads. -/
structure OpenAPISpec where
  Namespace : String
  Name : String
  Title : String
  SpecPath : String
  SpecContent : String
  Mock : Bool
  deriving DecidableEq, Repr

/-- Source `Server`: the published map and the configuration. -/
structure Server where
  specs : List (String × SpecInfo)
  port : Int
  externalURL : String
  specDirectory : String
  deriving DecidableEq, Repr

/-- Files written by the registry: path and content. -/
abbrev Disk := List (String × String)

/-- Operating system, network and loader as one call of `RegisterSpec` meets
them; an `Except.error` carries the text of the Go error. -/
structure World where
  /-- Function `filepath.Join`. -/
  join : String → String → String
  /-- Function `http.Get`: an error, or the status code and what `io.ReadAll` gives on the body. -/
  httpGet : String → Except String (Int × Except String String)
  /-- Function `os.Open`: an error, or what `io.ReadAll` gives on the file. -/
  openFile : String → Except String (Except String String)
  /-- Function `os.Create` on a path. -/
  create : String → Except String Unit
  /-- Writing content to the created file of a path. -/
  write : String → String → Except String Unit
  /-- Function `loads.Spec` on a path holding the given content (`none`: error). -/
  loadsSpec : String → String → Option Document
  /-- State of the random source after `gofakeit.Seed(0)`. -/
  seed : Rng

/-- The block `if isMockEnabled { ... }`, the same in the three branches: the
mocked content when `MockOpenAPISpec` succeeds, the content as it was otherwise. -/
def applyMock (L : Lib) (W : World) (fuel : Nat) (isMockEnabled : Bool) (content : String) :
    Option String :=
  if isMockEnabled then
    match MockOpenAPISpec L fuel W.seed content with
    | none => none
    | some (Except.error _) => some content
    | some (Except.ok mockedContent) => some mockedContent
  else some content

/-- The block `os.Create` then write, the same in the three branches up to the
text of the write error.  A failed write leaves the file as `os.Create` made it. -/
def persist (W : World) (disk : Disk) (specFilePath content writeMsg : String) :
    Except String Unit × Disk :=
  match W.create specFilePath with
  | Except.error e => (Except.error ("failed to create spec file: " ++ e), disk)
  | Except.ok _ =>
    match W.write specFilePath content with
    | Except.error e => (Except.error (writeMsg ++ e), mapSet specFilePath "" disk)
    | Except.ok _ => (Except.ok (), mapSet specFilePath content disk)

/-- Lines 137 and 143: the registration name and the file name. -/
def registrationName (openAPISpec : OpenAPISpec) : String :=
  openAPISpec.Namespace ++ "-" ++ openAPISpec.Name

/-- Lines 269-273: the base of the published URLs. -/
def baseURLOf (srv : Server) (openAPISpec : OpenAPISpec) : String :=
  if srv.externalURL = "" then
    "http://redokube." ++ openAPISpec.Namespace ++ ".svc:" ++ toString srv.port
  else srv.externalURL

/-- Lines 261-285: load the persisted file, build the record, publish it, return the URL. -/
def publish (W : World) (srv : Server) (openAPISpec : OpenAPISpec) (specFilePath content : String) :
    String × Server :=
  let name := registrationName openAPISpec
  let document := W.loadsSpec specFilePath content
  let baseURL := baseURLOf srv openAPISpec
  let specInfo : SpecInfo :=
    { Title := openAPISpec.Title
      SpecPath := openAPISpec.SpecPath
      SpecURL := baseURL ++ "/specs/" ++ (name ++ ".json")
      Document := document }
  (baseURL ++ "/docs/" ++ name, { srv with specs := mapSet name specInfo srv.specs })

/-- Mock, persist and publish: what each branch does once it has the content. -/
def storeAndPublish (L : Lib) (W : World) (fuel : Nat) (srv : Server) (disk : Disk)
    (openAPISpec : OpenAPISpec) (content writeMsg : String) :
    Option (Except String String × Server × Disk) :=
  let specFilePath := W.join srv.specDirectory (registrationName openAPISpec ++ ".json")
  match applyMock L W fuel openAPISpec.Mock content with
  | none => none
  | some content' =>
    match persist W disk specFilePath content' writeMsg with
    | (Except.error e, disk') => some (Except.error e, srv, disk')
    | (Except.ok _, disk') =>
      let r := publish W srv openAPISpec specFilePath content'
      some (Except.ok r.1, r.2, disk')

/-- Source `Server.RegisterSpec`, run under the write lock: the Go result
`(string, error)`, the server and the files after the call.  The outer `none`
is a mock synthesis that used up `fuel`. -/
def RegisterSpec (L : Lib) (W : World) (fuel : Nat) (srv : Server) (disk : Disk)
    (openAPISpec : OpenAPISpec) : Option (Except String String × Server × Disk) :=
  let name := registrationName openAPISpec
  let specPath := openAPISpec.SpecPath
  let specContent := openAPISpec.SpecContent
  if specContent ≠ "" then
    storeAndPublish L W fuel srv disk openAPISpec specContent
      "failed to write spec content to file: "
  else if specPath ≠ "" then
    if hasPrefix specPath "http://" || hasPrefix specPath "https://" then
      match W.httpGet specPath with
      | Except.error e =>
        some (Except.error ("failed to download OpenAPI spec from URL " ++ specPath ++ ": " ++ e),
          srv, disk)
      | Except.ok (statusCode, body) =>
        if statusCode ≠ 200 then
          some (Except.error ("failed to download OpenAPI spec from URL " ++ specPath ++
            ": status code " ++ toString statusCode), srv, disk)
        else
          match body with
          | Except.error e => some (Except.error ("failed to read spec content: " ++ e), srv, disk)
          | Except.ok content =>
            storeAndPublish L W fuel srv disk openAPISpec content "failed to write spec to file: "
    else
      match W.openFile specPath with
      | Except.error e =>
        some (Except.error ("failed to open OpenAPI spec file " ++ specPath ++ ": " ++ e),
          srv, disk)
      | Except.ok (Except.error e) =>
        some (Except.error ("failed to read spec content: " ++ e), srv, disk)
      | Except.ok (Except.ok content) =>
        storeAndPublish L W fuel srv disk openAPISpec content "failed to write spec to file: "
  else
    some (Except.error ("neither specPath nor specContent provided in OpenAPISpec " ++ name),
      srv, disk)

/-- The source bytes in the words of the specification (section 4.4): inline
content when it is not empty, whatever the path; else the body fetched from a
path that is a URL, or the content of the local file of any other path. -/
def sourceBytes (W : World) (openAPISpec : OpenAPISpec) : Option String :=
  if openAPISpec.SpecContent ≠ "" then some openAPISpec.SpecContent
  else if openAPISpec.SpecPath = "" then none
  else if hasPrefix openAPISpec.SpecPath "http://" || hasPrefix openAPISpec.SpecPath "https://" then
    match W.httpGet openAPISpec.SpecPath with
    | Except.ok (statusCode, Except.ok body) => if statusCode = 200 then some body else none
    | _ => none
  else
    match W.openFile openAPISpec.SpecPath with
    | Except.ok (Except.ok content) => some content
    | _ => none

/-! ## Sample library, documents and registry states (used by the witnesses) -/

/-- A small deterministic stand-in for the libraries: ASCII lower-casing, a
counter as random source, fixed generator outputs, and a codec that decodes
one text only and encodes every tree to one text. -/
def sampleLib : Lib where
  toLower := fun s => String.mk (s.toList.map Char.toLower)
  raw := fun s => s
  next := fun s => s + 1
  gen := fun g s =>
    (match g with
      | Gen.uuid => "123e4567-e89b-12d3-a456-426614174000"
      | Gen.email => "jane@example.com"
      | Gen.name => "Jane Doe"
      | Gen.sentence _ => "lorem ipsum dolor sit amet"
      | Gen.regex _ => "ERR_042"
      | _ => "lorem", s + 1)
  jsonUnmarshal := fun _ => none
  yamlUnmarshal := fun c => if c = "swagger: pet" then some [("swagger", Value.str "2.0")] else none
  yamlMarshal := fun _ => Except.ok "openapi: 3.1.0"

/-- Schema `Pet` of the end-to-end example of the specification. -/
def petDef : Obj :=
  [("properties", Value.obj
    [("id", Value.obj [("type", Value.str "string")]),
     ("name", Value.obj [("type", Value.str "string")])])]

/-- The end-to-end Swagger 2.0 document of the specification. -/
def petDoc : Obj :=
  [("swagger", Value.str "2.0"),
   ("host", Value.str "api.x.com"),
   ("basePath", Value.str "/v1"),
   ("definitions", Value.obj [("Pet", Value.obj petDef)]),
   ("paths", Value.obj [("/pets", Value.obj [("get", Value.obj [("responses", Value.obj
      [("200", Value.obj [("schema", Value.obj [("$ref", Value.str "#/definitions/Pet")])])])])])])]

/-- What `mockTree` makes of `petDoc` when the generators give `idValue` for `id`
and `nameValue` for `name`. -/
def petOutWith (idValue nameValue : String) : Obj :=
  [("openapi", Value.str "3.1.0"),
   ("info", Value.null),
   ("servers", Value.arr [Value.obj [("url", Value.str "https://api.x.com/v1")]]),
   ("components", Value.obj [("schemas", Value.obj [("Pet", Value.obj petDef)])]),
   ("paths", Value.obj [("/pets", Value.obj [("get", Value.obj [("responses", Value.obj
      [("200", Value.obj
        [("description", Value.null),
         ("content", Value.obj [("application/json", Value.obj
            [("schema", Value.obj [("$ref", Value.str "#/components/schemas/Pet")]),
             ("examples", Value.obj [("auto_example", Value.obj [("value", Value.obj
                [("id", Value.str idValue), ("name", Value.str nameValue)])])])])])])])])])])]

/-- What `mockTree` makes of `petDoc` with `sampleLib`. -/
def petOut : Obj := petOutWith "123e4567-e89b-12d3-a456-426614174000" "Jane Doe"

/-- A Swagger 2.0 document with neither `definitions` nor `paths`. -/
def bareDoc : Obj :=
  [("swagger", Value.str "2.0"), ("info", Value.obj [("title", Value.str "Bare")])]

/-- What `mockTree` makes of `bareDoc`. -/
def bareOut : Obj :=
  [("openapi", Value.str "3.1.0"),
   ("info", Value.obj [("title", Value.str "Bare")]),
   ("paths", Value.obj [])]

/-- An OpenAPI 3.x document: a path item with a `summary` next to its method,
a method with fields of its own, a response with `content`, an error response,
and an extension entry under `paths` that is not a mapping. -/
def storeDoc : Obj :=
  [("openapi", Value.str "3.0.3"),
   ("info", Value.obj [("title", Value.str "Store")]),
   ("components", Value.obj [("schemas", Value.obj
      [("Item", Value.obj [("properties", Value.obj
        [("userEmail", Value.obj [("type", Value.str "string")])])])])]),
   ("paths", Value.obj
      [("/items", Value.obj
        [("summary", Value.str "Items"),
         ("get", Value.obj
           [("summary", Value.str "List the items"),
            ("operationId", Value.str "listItems"),
            ("responses", Value.obj
              [("200", Value.obj
                 [("description", Value.str "ok"),
                  ("content", Value.obj [("application/json", Value.obj
                     [("schema", Value.obj
                        [("$ref", Value.str "#/components/schemas/Item")])])])]),
               ("404", Value.obj [("description", Value.str "missing")])])])]),
       ("x-internal", Value.bool true)])]

/-- The `get` method of `/items` in `storeDoc`. -/
def storeGet : Obj :=
  [("summary", Value.str "List the items"),
   ("operationId", Value.str "listItems"),
   ("responses", Value.obj
     [("200", Value.obj
        [("description", Value.str "ok"),
         ("content", Value.obj [("application/json", Value.obj
            [("schema", Value.obj [("$ref", Value.str "#/components/schemas/Item")])])])]),
      ("404", Value.obj [("description", Value.str "missing")])])]

/-- What `mockTree` makes of `storeDoc` with `sampleLib`. -/
def storeOut : Obj :=
  [("openapi", Value.str "3.0.3"),
   ("info", Value.obj [("title", Value.str "Store")]),
   ("components", Value.obj [("schemas", Value.obj
      [("Item", Value.obj [("properties", Value.obj
        [("userEmail", Value.obj [("type", Value.str "string")])])])])]),
   ("paths", Value.obj
      [("/items", Value.obj
        [("get", Value.obj
           [("summary", Value.str "List the items"),
            ("operationId", Value.str "listItems"),
            ("responses", Value.obj
              [("200", Value.obj [("description", Value.str "ok")]),
               ("404", Value.obj
                 [("description", Value.str "missing"),
                  ("content", errorContent "lorem ipsum dolor sit amet" "ERR_042")])])])])])]

/-- A world in which one URL answers 200, every other URL 404, no local file
can be opened, and every file can be created and written. -/
def sampleWorld : World where
  join := fun dir file => dir ++ "/" ++ file
  httpGet := fun url =>
    if url = "https://example.com/pet.yaml" then Except.ok (200, Except.ok "swagger: pet")
    else Except.ok (404, Except.ok "")
  openFile := fun _ => Except.error "no such file"
  create := fun _ => Except.ok ()
  write := fun _ _ => Except.ok ()
  loadsSpec := fun _ _ => none
  seed := 0

/-- The same world with a file system on which no file can be created. -/
def readOnlyWorld : World :=
  { sampleWorld with create := fun _ => Except.error "read-only file system" }

/-- A registry that already publishes `ns1-pet`. -/
def sampleServer : Server where
  specs := [("ns1-pet", { Title := "Pets", SpecPath := "", SpecURL := "http://docs/specs/ns1-pet.json",
                          Document := none })]
  port := 8080
  externalURL := ""
  specDirectory := "/tmp/redokube-specs"

/-- A resource with neither `specPath` nor `specContent`. -/
def emptySpec : OpenAPISpec where
  Namespace := "ns1"
  Name := "pet"
  Title := "Pets v2"
  SpecPath := ""
  SpecContent := ""
  Mock := false

/-- A resource with inline content that the sample codec cannot decode, a path
next to it, and mocking enabled. -/
def inlineSpec : OpenAPISpec where
  Namespace := "ns2"
  Name := "car"
  Title := "Cars"
  SpecPath := "https://example.com/pet.yaml"
  SpecContent := "not a document"
  Mock := true

/-- A resource fetched from a URL whose body the sample codec decodes, with
mocking enabled. -/
def urlSpec : OpenAPISpec where
  Namespace := "ns1"
  Name := "pet"
  Title := "Pets v2"
  SpecPath := "https://example.com/pet.yaml"
  SpecContent := ""
  Mock := true

/-- A property `scores`: an array of integers. -/
def scoresField : Obj :=
  [("type", Value.str "array"), ("items", Value.obj [("type", Value.str "integer")])]

/-- A schema with the array property `scores`, a property of a type that is not
recognized, a property that is not a mapping, and a property with a reference
that the registry does not hold. -/
def reportDef : Obj :=
  [("properties", Value.obj
    [("scores", Value.obj scoresField),
     ("blob", Value.obj [("type", Value.str "binary")]),
     ("note", Value.str "free text"),
     ("owner", Value.obj [("$ref", Value.str "#/definitions/Missing")])])]

/-- A Swagger 2.0 document whose definition `Pet` is a string instead of a
mapping, with a "200" response that refers to it and a "404" response. -/
def brokenRefDoc : Obj :=
  [("swagger", Value.str "2.0"),
   ("definitions", Value.obj [("Pet", Value.str "to be written")]),
   ("paths", Value.obj [("/pets", Value.obj [("get", Value.obj [("responses", Value.obj
      [("200", Value.obj
         [("description", Value.str "the pets"),
          ("schema", Value.obj [("$ref", Value.str "#/definitions/Pet")])]),
       ("404", Value.obj [("description", Value.str "missing")])])])])])]

/-- What `mockTree` makes of `brokenRefDoc` with `sampleLib`: the "200" response
is gone. -/
def brokenRefOut : Obj :=
  [("openapi", Value.str "3.1.0"),
   ("info", Value.null),
   ("components", Value.obj [("schemas", Value.obj [("Pet", Value.str "to be written")])]),
   ("paths", Value.obj [("/pets", Value.obj [("get", Value.obj [("responses", Value.obj
      [("404", Value.obj
         [("description", Value.str "missing"),
          ("content", errorContent "lorem ipsum dolor sit amet" "ERR_042")])])])])])]

/-- Resource `pets` of the namespace `team-a`. -/
def teamASpec : OpenAPISpec where
  Namespace := "team-a"
  Name := "pets"
  Title := "Team A pets"
  SpecPath := ""
  SpecContent := "spec of team-a/pets"
  Mock := false

/-- Resource `a-pets` of the namespace `team`. -/
def teamBSpec : OpenAPISpec where
  Namespace := "team"
  Name := "a-pets"
  Title := "Team pets"
  SpecPath := ""
  SpecContent := "spec of team/a-pets"
  Mock := false

/-- The sample registry after `teamASpec` was registered. -/
def serverAfterTeamA : Server :=
  { sampleServer with specs :=
      [("ns1-pet", { Title := "Pets", SpecPath := "", SpecURL := "http://docs/specs/ns1-pet.json",
                     Document := none }),
       ("team-a-pets", { Title := "Team A pets", SpecPath := "",
                         SpecURL := "http://redokube.team-a.svc:8080/specs/team-a-pets.json",
                         Document := none })] }

/-- The sample registry after `teamASpec` and then `teamBSpec` were registered. -/
def serverAfterTeamB : Server :=
  { sampleServer with specs :=
      [("ns1-pet", { Title := "Pets", SpecPath := "", SpecURL := "http://docs/specs/ns1-pet.json",
                     Document := none }),
       ("team-a-pets", { Title := "Team pets", SpecPath := "",
                         SpecURL := "http://redokube.team.svc:8080/specs/team-a-pets.json",
                         Document := none })] }

/-! ## Maps and loops: basic facts -/

theorem mapGet_mapSet_self {α : Type} (k : String) (v : α) (m : List (String × α)) :
    mapGet k (mapSet k v m) = some v := by
  induction m with
  | nil => simp [mapSet, mapGet]
  | cons e rest ih =>
    obtain ⟨k', v'⟩ := e
    by_cases h : k' = k
    · simp [mapSet, mapGet, h]
    · simp [mapSet, mapGet, h, ih]

theorem mapGet_mapSet_ne {α : Type} {k k' : String} (v : α) (m : List (String × α))
    (h : k' ≠ k) : mapGet k' (mapSet k v m) = mapGet k' m := by
  induction m with
  | nil => simp [mapSet, mapGet, Ne.symm h]
  | cons e rest ih =>
    obtain ⟨k0, v0⟩ := e
    by_cases h0 : k0 = k
    · subst h0
      simp [mapSet, mapGet, Ne.symm h]
    · by_cases h1 : k0 = k'
      · subst h1
        simp [mapSet, mapGet, h0]
      · simp [mapSet, mapGet, h0, h1, ih]

theorem mapGet_eq_none_iff {α : Type} (k : String) (m : List (String × α)) :
    mapGet k m = none ↔ k ∉ keys m := by
  induction m with
  | nil => simp [mapGet, keys]
  | cons e rest ih =>
    obtain ⟨k0, v0⟩ := e
    by_cases h0 : k0 = k
    · simp [mapGet, keys, h0]
    · have : ¬ k = k0 := fun h => h0 h.symm
      simp only [mapGet, h0, if_false, ih, keys, List.map_cons, List.mem_cons, this, false_or]

theorem mem_keys_iff {α : Type} (k : String) (m : List (String × α)) :
    k ∈ keys m ↔ ∃ v, mapGet k m = some v := by
  constructor
  · intro h
    cases hg : mapGet k m with
    | none => exact absurd h ((mapGet_eq_none_iff k m).1 hg)
    | some v => exact ⟨v, rfl⟩
  · rintro ⟨v, hv⟩
    by_contra hc
    rw [(mapGet_eq_none_iff k m).2 hc] at hv
    cases hv

/-- A loop leaves alone every key it does not visit. -/
theorem rangeLoop_frame (body : String → Value → Rng → Option (Option Value × Rng))
    (k : String) (m : Obj) :
    ∀ (acc : Obj) (s : Rng) (out : Obj) (s' : Rng),
      rangeLoop body m acc s = some (out, s') → k ∉ keys m → mapGet k out = mapGet k acc := by
  induction m with
  | nil =>
    intro acc s out s' h _
    simp [rangeLoop] at h
    rw [h.1]
  | cons e rest ih =>
    obtain ⟨k0, v0⟩ := e
    intro acc s out s' h hk
    have hk0 : k ≠ k0 := fun hh => hk (by simp [keys, hh])
    have hrest : k ∉ keys rest := fun hh => hk (by simp [keys] at hh ⊢; exact Or.inr hh)
    simp only [rangeLoop] at h
    cases hb : body k0 v0 s with
    | none => rw [hb] at h; cases h
    | some r =>
      obtain ⟨r1, s1⟩ := r
      rw [hb] at h
      cases r1 with
      | none => exact ih acc s1 out s' h hrest
      | some x =>
        rw [ih (mapSet k0 x acc) s1 out s' h hrest]
        exact mapGet_mapSet_ne x acc hk0

/-- What a loop leaves under a key it visits: the value stored by the body run
on that entry, or what was there when the body stored nothing. -/
theorem rangeLoop_hit (body : String → Value → Rng → Option (Option Value × Rng))
    (k : String) (v : Value) (m : Obj) :
    ∀ (acc : Obj) (s : Rng) (out : Obj) (s' : Rng),
      rangeLoop body m acc s = some (out, s') → Distinct m → mapGet k m = some v →
      ∃ s1 r s2, body k v s1 = some (r, s2) ∧
        ((∃ x, r = some x ∧ mapGet k out = some x) ∨ (r = none ∧ mapGet k out = mapGet k acc)) := by
  induction m with
  | nil =>
    intro acc s out s' _ _ hg
    simp [mapGet] at hg
  | cons e rest ih =>
    obtain ⟨k0, v0⟩ := e
    intro acc s out s' h hd hg
    have hd' : k0 ∉ keys rest ∧ Distinct rest := by
      simpa [Distinct, keys] using hd
    simp only [rangeLoop] at h
    cases hb : body k0 v0 s with
    | none => rw [hb] at h; cases h
    | some r =>
      obtain ⟨r1, s1⟩ := r
      rw [hb] at h
      by_cases hk : k0 = k
      · subst hk
        have hv : v0 = v := by simpa [mapGet] using hg
        subst hv
        refine ⟨s, r1, s1, hb, ?_⟩
        cases r1 with
        | none => exact Or.inr ⟨rfl, rangeLoop_frame body k0 rest acc s1 out s' h hd'.1⟩
        | some x =>
          refine Or.inl ⟨x, rfl, ?_⟩
          rw [rangeLoop_frame body k0 rest (mapSet k0 x acc) s1 out s' h hd'.1]
          exact mapGet_mapSet_self k0 x acc
      · have hg' : mapGet k rest = some v := by simpa [mapGet, hk] using hg
        have hkne : k ≠ k0 := fun hh => hk hh.symm
        cases r1 with
        | none => exact ih acc s1 out s' h hd'.2 hg'
        | some x =>
          obtain ⟨t1, r, t2, hbody, hres⟩ := ih (mapSet k0 x acc) s1 out s' h hd'.2 hg'
          refine ⟨t1, r, t2, hbody, ?_⟩
          rcases hres with hres | ⟨hr, hres⟩
          · exact Or.inl hres
          · exact Or.inr ⟨hr, by rw [hres]; exact mapGet_mapSet_ne x acc hkne⟩

/-! ## The recursion budget: a result does not depend on it -/

/-- A loop whose body answers at least as often answers the same. -/
theorem rangeLoop_mono (body body' : String → Value → Rng → Option (Option Value × Rng))
    (hb : ∀ k v s r, body k v s = some r → body' k v s = some r) (m : Obj) :
    ∀ (acc : Obj) (s : Rng) (r : Obj × Rng),
      rangeLoop body m acc s = some r → rangeLoop body' m acc s = some r := by
  induction m with
  | nil =>
    intro acc s r h
    simpa [rangeLoop] using h
  | cons e rest ih =>
    obtain ⟨k, v⟩ := e
    intro acc s r h
    simp only [rangeLoop] at h ⊢
    cases hk : body k v s with
    | none => rw [hk] at h; cases h
    | some x =>
      obtain ⟨x1, s1⟩ := x
      rw [hk] at h
      rw [hb k v s _ hk]
      cases x1 with
      | none => exact ih acc s1 r h
      | some y => exact ih (mapSet k y acc) s1 r h

theorem followRef_mono (recur recur' : Obj → Obj → Rng → Option (Obj × Rng))
    (hrec : ∀ d defs s r, recur d defs s = some r → recur' d defs s = some r)
    (twice : Bool) (holder defs : Obj) (s : Rng) (r : Option Value × Rng)
    (h : followRef recur twice holder defs s = some r) :
    followRef recur' twice holder defs s = some r := by
  unfold followRef at h ⊢
  cases hs : asStr (mapGet "$ref" holder) with
  | none => rw [hs] at h; exact h
  | some ref =>
    rw [hs] at h
    simp only at h ⊢
    cases hd : mapGet (resolveRef ref) defs with
    | none => rw [hd] at h; exact h
    | some x =>
      rw [hd] at h
      cases x with
      | obj subDef =>
        simp only at h ⊢
        cases h1 : recur subDef defs s with
        | none => rw [h1] at h; cases h
        | some o =>
          obtain ⟨o1, s1⟩ := o
          rw [h1] at h
          rw [hrec _ _ _ _ h1]
          simp only at h ⊢
          cases twice with
          | false => exact h
          | true =>
            simp only [if_true] at h ⊢
            cases h2 : recur subDef defs s1 with
            | none => rw [h2] at h; cases h
            | some o' =>
              rw [h2] at h
              rw [hrec _ _ _ _ h2]
              exact h
      | _ => exact h

theorem fakeProperty_mono (L : Lib) (recur recur' : Obj → Obj → Rng → Option (Obj × Rng))
    (hrec : ∀ d defs s r, recur d defs s = some r → recur' d defs s = some r)
    (defs : Obj) (key : String) (val : Value) (s : Rng) (r : Option Value × Rng)
    (h : fakeProperty L recur defs key val s = some r) :
    fakeProperty L recur' defs key val s = some r := by
  cases val with
  | obj field =>
    simp only [fakeProperty] at h ⊢
    split_ifs at h ⊢
    · exact h
    · exact h
    · exact h
    · cases hi : asObj (mapGet "items" field) with
      | none => rw [hi] at h; exact h
      | some items =>
        rw [hi] at h
        simp only at h ⊢
        split_ifs at h ⊢
        · exact h
        · exact h
        · exact h
        · exact followRef_mono recur recur' hrec _ _ _ _ _ h
    · cases hp : asObj (mapGet "properties" field) with
      | none =>
        rw [hp] at h
        exact followRef_mono recur recur' hrec _ _ _ _ _ h
      | some props => rw [hp] at h; exact h
    · exact followRef_mono recur recur' hrec _ _ _ _ _ h
  | _ => exact h

/-- A larger budget gives the same example. -/
theorem generateFakeObject_mono (L : Lib) (n : Nat) :
    ∀ (d defs : Obj) (s : Rng) (r : Obj × Rng),
      generateFakeObject L n d defs s = some r → generateFakeObject L (n + 1) d defs s = some r := by
  induction n with
  | zero =>
    intro d defs s r h
    simp [generateFakeObject] at h
  | succ n ih =>
    intro d defs s r h
    rw [generateFakeObject] at h ⊢
    cases hp : asObj (mapGet "properties" d) with
    | none => rw [hp] at h; exact h
    | some props =>
      rw [hp] at h
      simp only at h ⊢
      exact rangeLoop_mono _ _ (fun k v s r hr =>
        fakeProperty_mono L _ _ (fun d' defs' s' r' => ih d' defs' s' r') defs k v s r hr)
        props [] s r h

theorem mockResponse_mono (L : Lib) (n : Nat) (schemas : Obj) (code : String) (v : Value)
    (s : Rng) (r : Option Value × Rng)
    (h : mockResponse L n schemas code v s = some r) :
    mockResponse L (n + 1) schemas code v s = some r := by
  cases v with
  | obj response =>
    simp only [mockResponse] at h ⊢
    split_ifs at h ⊢
    · cases hs : asObj (mapGet "schema" response) with
      | none => rw [hs] at h; exact h
      | some schema =>
        rw [hs] at h
        simp only at h ⊢
        cases hf : asStr (mapGet "$ref" schema) with
        | none => rw [hf] at h; exact h
        | some ref =>
          rw [hf] at h
          simp only at h ⊢
          cases hd : mapGet (resolveRef ref) schemas with
          | none => rw [hd] at h; exact h
          | some x =>
            rw [hd] at h
            cases x with
            | obj defMap =>
              simp only at h ⊢
              cases hg : generateFakeObject L n defMap schemas s with
              | none => rw [hg] at h; cases h
              | some o =>
                rw [hg] at h
                rw [generateFakeObject_mono L n _ _ _ _ hg]
                exact h
            | _ => exact h
    · exact h
  | _ => exact h

theorem mockMethod_mono (L : Lib) (n : Nat) (schemas : Obj) (k : String) (v : Value)
    (s : Rng) (r : Option Value × Rng)
    (h : mockMethod L n schemas k v s = some r) :
    mockMethod L (n + 1) schemas k v s = some r := by
  cases v with
  | obj method =>
    simp only [mockMethod] at h ⊢
    cases hc : rangeLoop copyField method [] s with
    | none => rw [hc] at h; cases h
    | some x =>
      obtain ⟨newMethod, s1⟩ := x
      rw [hc] at h
      simp only at h ⊢
      cases hl : rangeLoop (mockResponse L n schemas)
          ((asObj (mapGet "responses" method)).getD []) [] s1 with
      | none => rw [hl] at h; cases h
      | some y =>
        rw [hl] at h
        rw [rangeLoop_mono _ _ (fun c v' s' r' => mockResponse_mono L n schemas c v' s' r')
          _ _ _ _ hl]
        exact h
  | _ => exact h

theorem mockPathItem_mono (L : Lib) (n : Nat) (schemas : Obj) (k : String) (v : Value)
    (s : Rng) (r : Option Value × Rng)
    (h : mockPathItem L n schemas k v s = some r) :
    mockPathItem L (n + 1) schemas k v s = some r := by
  cases v with
  | obj item =>
    simp only [mockPathItem] at h ⊢
    cases hl : rangeLoop (mockMethod L n schemas) item [] s with
    | none => rw [hl] at h; cases h
    | some y =>
      rw [hl] at h
      rw [rangeLoop_mono _ _ (fun c v' s' r' => mockMethod_mono L n schemas c v' s' r')
        _ _ _ _ hl]
      exact h
  | _ => exact h

/-- The tree produced with some budget is the tree produced with every larger one. -/
theorem mockTree_mono (L : Lib) (n k : Nat) (swagger : Obj) (s0 : Rng) (r : Obj × Rng)
    (h : mockTree L n swagger s0 = some r) : mockTree L (n + k) swagger s0 = some r := by
  induction k with
  | zero => exact h
  | succ k ih =>
    unfold mockTree at ih ⊢
    simp only at ih ⊢
    cases hl : rangeLoop (mockPathItem L (n + k) (schemasOf swagger (normalize swagger)))
        (rawPathsOf swagger (normalize swagger)) [] s0 with
    | none => rw [hl] at ih; cases ih
    | some y =>
      rw [hl] at ih
      rw [show n + (k + 1) = n + k + 1 from rfl,
        rangeLoop_mono _ _ (fun c v' s' r' => mockPathItem_mono L (n + k) _ c v' s' r')
          _ _ _ _ hl]
      exact ih

/-! ## Normalizer -/

/-- The encoded map is the normalized map with `paths` replaced. -/
theorem mockTree_eq (L : Lib) (fuel : Nat) (swagger : Obj) (s0 : Rng) (out : Obj) (s' : Rng)
    (hr : mockTree L fuel swagger s0 = some (out, s')) :
    ∃ paths, rangeLoop (mockPathItem L fuel (schemasOf swagger (normalize swagger)))
        (rawPathsOf swagger (normalize swagger)) [] s0 = some (paths, s') ∧
      out = mapSet "paths" (Value.obj paths) (normalize swagger) := by
  unfold mockTree at hr
  simp only at hr
  cases hl : rangeLoop (mockPathItem L fuel (schemasOf swagger (normalize swagger)))
      (rawPathsOf swagger (normalize swagger)) [] s0 with
  | none => rw [hl] at hr; cases hr
  | some r =>
    obtain ⟨paths, s1⟩ := r
    rw [hl] at hr
    simp only [Option.some.injEq, Prod.mk.injEq] at hr
    exact ⟨paths, by rw [← hr.2], hr.1.symm⟩

/-- Every top-level key other than `paths` is as the normalizer left it. -/
theorem mockTree_get_ne (L : Lib) (fuel : Nat) (swagger : Obj) (s0 : Rng) (out : Obj) (s' : Rng)
    (hr : mockTree L fuel swagger s0 = some (out, s')) (k : String) (hk : k ≠ "paths") :
    mapGet k out = mapGet k (normalize swagger) := by
  obtain ⟨paths, _, rfl⟩ := mockTree_eq L fuel swagger s0 out s' hr
  exact mapGet_mapSet_ne _ _ hk

/-- The encoded map always has a `paths` mapping: the one built by the loop. -/
theorem mockTree_get_paths (L : Lib) (fuel : Nat) (swagger : Obj) (s0 : Rng) (out : Obj) (s' : Rng)
    (hr : mockTree L fuel swagger s0 = some (out, s')) :
    ∃ paths, rangeLoop (mockPathItem L fuel (schemasOf swagger (normalize swagger)))
        (rawPathsOf swagger (normalize swagger)) [] s0 = some (paths, s') ∧
      mapGet "paths" out = some (Value.obj paths) := by
  obtain ⟨paths, h, rfl⟩ := mockTree_eq L fuel swagger s0 out s' hr
  exact ⟨paths, h, mapGet_mapSet_self _ _ _⟩

theorem normalize_servers (swagger : Obj) (H : String) (basePath : String)
    (hv : isOpenAPI3 swagger = false)
    (hh : mapGet "host" swagger = some (Value.str H))
    (hb : (match asStr (mapGet "basePath" swagger) with
            | some bp => bp
            | none => "/") = basePath) :
    mapGet "servers" (normalize swagger) =
      some (Value.arr [Value.obj [("url", Value.str ("https://" ++ H ++ basePath))]]) := by
  subst hb
  unfold normalize
  simp only [hv, hh, asStr]
  cases asObj (mapGet "definitions" swagger) with
  | none => simp [mapGet, mapSet]
  | some defs => simp [mapGet, mapSet]

/-- C1: for a Swagger 2.0 document (its `openapi` is not a string starting with
"3.") with a string `host` H, the produced document has `servers` equal to the
one-element list whose `url` is "https://" + H + B when `basePath` is the string
B, and "https://" + H + "/" when there is no `basePath` (and also when
`basePath` is there but is not a string). -/
theorem servers_url_of_host (L : Lib) (fuel : Nat) (swagger : Obj) (s0 : Rng) (out : Obj)
    (s' : Rng) (H : String)
    (hv : isOpenAPI3 swagger = false)
    (hh : mapGet "host" swagger = some (Value.str H))
    (hr : mockTree L fuel swagger s0 = some (out, s')) :
    (∀ B, mapGet "basePath" swagger = some (Value.str B) →
      mapGet "servers" out =
        some (Value.arr [Value.obj [("url", Value.str ("https://" ++ H ++ B))]])) ∧
    (mapGet "basePath" swagger = none →
      mapGet "servers" out =
        some (Value.arr [Value.obj [("url", Value.str ("https://" ++ H ++ "/"))]])) ∧
    (asStr (mapGet "basePath" swagger) = none →
      mapGet "servers" out =
        some (Value.arr [Value.obj [("url", Value.str ("https://" ++ H ++ "/"))]])) := by
  have hs := mockTree_get_ne L fuel swagger s0 out s' hr "servers" (by decide)
  refine ⟨?_, ?_, ?_⟩
  · intro B hB
    rw [hs]
    exact normalize_servers swagger H B hv hh (by rw [hB]; rfl)
  · intro hB
    rw [hs]
    exact normalize_servers swagger H "/" hv hh (by rw [hB]; rfl)
  · intro hB
    rw [hs]
    exact normalize_servers swagger H "/" hv hh (by rw [hB])

/-- Witness of C1 on the end-to-end document of the specification. -/
theorem servers_url_of_host_witness :
    isOpenAPI3 petDoc = false ∧
    mapGet "host" petDoc = some (Value.str "api.x.com") ∧
    mapGet "basePath" petDoc = some (Value.str "/v1") ∧
    mockTree sampleLib 1 petDoc 0 = some (petOut, 2) ∧
    mapGet "servers" petOut =
      some (Value.arr [Value.obj [("url", Value.str ("https://" ++ "api.x.com" ++ "/v1"))]]) :=
  ⟨rfl, rfl, rfl, rfl,
    (servers_url_of_host sampleLib 1 petDoc 0 petOut 2 "api.x.com" rfl rfl rfl).1 "/v1" rfl⟩

theorem normalize_header_of_swagger2 (swagger : Obj) (hv : isOpenAPI3 swagger = false) :
    mapGet "openapi" (normalize swagger) = some (Value.str "3.1.0") ∧
    mapGet "info" (normalize swagger) = some (idx swagger "info") := by
  unfold normalize
  simp only [hv]
  cases asStr (mapGet "host" swagger) <;> cases asObj (mapGet "definitions" swagger) <;>
    simp [mapGet, mapSet]

theorem normalize_components_of_swagger2 (swagger : Obj) (hv : isOpenAPI3 swagger = false) :
    mapGet "components" (normalize swagger) =
      (asObj (mapGet "definitions" swagger)).map
        (fun defs => Value.obj [("schemas", Value.obj defs)]) := by
  unfold normalize
  simp only [hv]
  cases asStr (mapGet "host" swagger) <;> cases asObj (mapGet "definitions" swagger) <;>
    simp [mapGet, mapSet]

/-- C2: for a document whose `openapi` is not a string starting with "3.", the
produced tree has `openapi` equal to "3.1.0", `info` equal to the input's
`info` (the value of the Go index expression `swagger["info"]`), and, when the
input has a `definitions` mapping, `components` holding exactly `schemas` equal
to that mapping, every schema unchanged. -/
theorem swagger2_header (L : Lib) (fuel : Nat) (swagger : Obj) (s0 : Rng) (out : Obj) (s' : Rng)
    (hv : isOpenAPI3 swagger = false)
    (hr : mockTree L fuel swagger s0 = some (out, s')) :
    mapGet "openapi" out = some (Value.str "3.1.0") ∧
    mapGet "info" out = some (idx swagger "info") ∧
    (∀ defs, mapGet "definitions" swagger = some (Value.obj defs) →
      mapGet "components" out = some (Value.obj [("schemas", Value.obj defs)]) ∧
      getPath ["components", "schemas"] (Value.obj out) = some (Value.obj defs) ∧
      ∀ name, getPath ["components", "schemas", name] (Value.obj out) = mapGet name defs) := by
  have h1 := mockTree_get_ne L fuel swagger s0 out s' hr "openapi" (by decide)
  have h2 := mockTree_get_ne L fuel swagger s0 out s' hr "info" (by decide)
  have h3 := mockTree_get_ne L fuel swagger s0 out s' hr "components" (by decide)
  obtain ⟨ho, hi⟩ := normalize_header_of_swagger2 swagger hv
  refine ⟨by rw [h1, ho], by rw [h2, hi], ?_⟩
  intro defs hd
  have hc : mapGet "components" out = some (Value.obj [("schemas", Value.obj defs)]) := by
    rw [h3, normalize_components_of_swagger2 swagger hv, hd]
    rfl
  refine ⟨hc, ?_, ?_⟩
  · simp [getPath, hc, mapGet]
  · intro name
    simp only [getPath, hc, mapGet, if_true]
    cases mapGet name defs <;> rfl

/-- Witness of C2 on the end-to-end document of the specification:
`components.schemas.Pet` is the input's `definitions.Pet`. -/
theorem swagger2_header_witness :
    isOpenAPI3 petDoc = false ∧
    mockTree sampleLib 1 petDoc 0 = some (petOut, 2) ∧
    mapGet "openapi" petOut = some (Value.str "3.1.0") ∧
    getPath ["components", "schemas", "Pet"] (Value.obj petOut) =
      getPath ["definitions", "Pet"] (Value.obj petDoc) :=
  ⟨rfl, rfl, (swagger2_header sampleLib 1 petDoc 0 petOut 2 rfl rfl).1,
    ((swagger2_header sampleLib 1 petDoc 0 petOut 2 rfl rfl).2.2
      [("Pet", Value.obj petDef)] rfl).2.2 "Pet"⟩

theorem isOpenAPI3_version (swagger : Obj) (hv : isOpenAPI3 swagger = true) :
    ∃ v, mapGet "openapi" swagger = some (Value.str v) ∧ hasPrefix v "3." = true := by
  unfold isOpenAPI3 at hv
  cases hg : mapGet "openapi" swagger with
  | none => simp [hg, asStr] at hv
  | some x =>
    cases x with
    | str v => exact ⟨v, rfl, by simpa [hg, asStr] using hv⟩
    | _ => simp [hg, asStr] at hv

theorem normalize_of_openAPI3 (swagger : Obj) (hv : isOpenAPI3 swagger = true) :
    normalize swagger = swagger := by
  simp [normalize, hv]

theorem normalize_paths_of_swagger2 (swagger : Obj) (hv : isOpenAPI3 swagger = false) :
    mapGet "paths" (normalize swagger) = none := by
  unfold normalize
  simp only [hv]
  cases asStr (mapGet "host" swagger) <;> cases asObj (mapGet "definitions" swagger) <;>
    simp [mapGet, mapSet]

/-- Without a `paths` mapping in the input the loop runs over an empty map. -/
theorem rawPathsOf_eq_nil (swagger : Obj) (hp : asObj (mapGet "paths" swagger) = none) :
    rawPathsOf swagger (normalize swagger) = [] := by
  unfold rawPathsOf
  rw [hp]
  cases hv : isOpenAPI3 swagger with
  | true => simp [normalize_of_openAPI3 swagger hv, hp]
  | false => simp [normalize_paths_of_swagger2 swagger hv, asObj]

/-- C5 (amended): every produced tree has an `openapi` version string beginning
with "3." and a `paths` mapping; a document without a `paths` mapping yields an
empty `paths` mapping for every recursion budget.  `components.schemas` is only
there when the input supplies it: for Swagger 2.0 it is the input's
`definitions` when that is a mapping and absent otherwise, for 3.x it is
whatever the input has at `components.schemas`. -/
theorem output_shape (L : Lib) (fuel : Nat) (swagger : Obj) (s0 : Rng) :
    (∀ out s', mockTree L fuel swagger s0 = some (out, s') →
      (∃ v, mapGet "openapi" out = some (Value.str v) ∧ hasPrefix v "3." = true) ∧
      (∃ paths, mapGet "paths" out = some (Value.obj paths)) ∧
      getPath ["components", "schemas"] (Value.obj out) =
        if isOpenAPI3 swagger then getPath ["components", "schemas"] (Value.obj swagger)
        else (asObj (mapGet "definitions" swagger)).map Value.obj) ∧
    (asObj (mapGet "paths" swagger) = none →
      mockTree L fuel swagger s0 = some (mapSet "paths" (Value.obj []) (normalize swagger), s0) ∧
      mapGet "paths" (mapSet "paths" (Value.obj []) (normalize swagger)) = some (Value.obj []) ∧
      ∀ content y, parseSpec L content = some swagger →
        L.yamlMarshal (mapSet "paths" (Value.obj []) (normalize swagger)) = Except.ok y →
        MockOpenAPISpec L fuel s0 content = some (Except.ok y)) := by
  constructor
  · intro out s' hr
    have h1 := mockTree_get_ne L fuel swagger s0 out s' hr "openapi" (by decide)
    have h3 := mockTree_get_ne L fuel swagger s0 out s' hr "components" (by decide)
    obtain ⟨paths, _, hp⟩ := mockTree_get_paths L fuel swagger s0 out s' hr
    refine ⟨?_, ⟨paths, hp⟩, ?_⟩
    · cases hv : isOpenAPI3 swagger with
      | true =>
        rw [normalize_of_openAPI3 swagger hv] at h1
        rw [h1]
        exact isOpenAPI3_version swagger hv
      | false =>
        rw [(normalize_header_of_swagger2 swagger hv).1] at h1
        exact ⟨"3.1.0", h1, by decide⟩
    · cases hv : isOpenAPI3 swagger with
      | true =>
        rw [normalize_of_openAPI3 swagger hv] at h3
        simp only [getPath, h3, if_true]
      | false =>
        rw [normalize_components_of_swagger2 swagger hv] at h3
        simp only [getPath, h3]
        cases asObj (mapGet "definitions" swagger) <;> simp [mapGet, getPath]
  · intro hp
    have hm : mockTree L fuel swagger s0 =
        some (mapSet "paths" (Value.obj []) (normalize swagger), s0) := by
      unfold mockTree
      simp only [rawPathsOf_eq_nil swagger hp, rangeLoop]
    refine ⟨hm, mapGet_mapSet_self _ _ _, ?_⟩
    intro content y hparse hy
    simp only [MockOpenAPISpec, hparse, hm, hy]

/-- Witness of the amended C5: a document with neither `definitions` nor `paths`. -/
theorem output_shape_witness :
    asObj (mapGet "paths" bareDoc) = none ∧
    mockTree sampleLib 0 bareDoc 0 = some (bareOut, 0) ∧
    (∃ v, mapGet "openapi" bareOut = some (Value.str v) ∧ hasPrefix v "3." = true) ∧
    mapGet "paths" bareOut = some (Value.obj []) :=
  ⟨rfl, rfl, ((output_shape sampleLib 0 bareDoc 0).1 bareOut 0 rfl).1,
    ((output_shape sampleLib 0 bareDoc 0).2 rfl).2.1⟩

/-- C5 as stated fails: a Swagger 2.0 document without `definitions` parses and
is processed without error, and the produced tree has no `components` at all,
hence no `components.schemas` mapping. -/
theorem output_shape_counterexample :
    isOpenAPI3 bareDoc = false ∧
    mockTree sampleLib 0 bareDoc 0 = some (bareOut, 0) ∧
    mapGet "components" bareOut = none ∧
    getPath ["components", "schemas"] (Value.obj bareOut) = none :=
  ⟨rfl, rfl, rfl, rfl⟩

/-! ## Response augmenter -/

theorem rawPathsOf_of_paths (swagger paths : Obj)
    (hp : mapGet "paths" swagger = some (Value.obj paths)) :
    rawPathsOf swagger (normalize swagger) = paths := by
  simp [rawPathsOf, hp, asObj]

/-- The copy loop keeps every field but `responses`. -/
theorem copy_loop (method : Obj) (s : Rng) (newMethod : Obj) (s' : Rng)
    (hd : Distinct method)
    (h : rangeLoop copyField method [] s = some (newMethod, s')) (k : String) :
    mapGet k newMethod = if k = "responses" then none else mapGet k method := by
  cases hg : mapGet k method with
  | none =>
    have hk : k ∉ keys method := (mapGet_eq_none_iff k method).1 hg
    rw [rangeLoop_frame copyField k method [] s newMethod s' h hk]
    simp [mapGet]
  | some v =>
    obtain ⟨s1, r, s2, hb, hres⟩ := rangeLoop_hit copyField k v method [] s newMethod s' h hd hg
    unfold copyField at hb
    by_cases hk : k = "responses"
    · simp only [hk, ne_eq, not_true_eq_false, if_false, Option.some.injEq, Prod.mk.injEq] at hb
      rcases hres with ⟨x, hx, _⟩ | ⟨_, hres⟩
      · rw [hx] at hb
        exact absurd hb.1 (by simp)
      · rw [hres]
        simp [hk, mapGet]
    · simp only [ne_eq, hk, not_false_eq_true, if_true, Option.some.injEq, Prod.mk.injEq] at hb
      rcases hres with ⟨x, hx, hres⟩ | ⟨hr, _⟩
      · rw [hres, if_neg hk]
        rw [hx] at hb
        rw [← Option.some.inj hb.1]
      · rw [hr] at hb
        exact absurd hb.1 (by simp)

/-- What the loop over a path item stores for a method that is a mapping. -/
theorem mockMethod_obj (L : Lib) (fuel : Nat) (schemas : Obj) (m : String) (method : Obj)
    (s : Rng) (r : Option Value) (s' : Rng)
    (h : mockMethod L fuel schemas m (Value.obj method) s = some (r, s')) :
    ∃ newMethod responses s1,
      rangeLoop copyField method [] s = some (newMethod, s1) ∧
      rangeLoop (mockResponse L fuel schemas) ((asObj (mapGet "responses" method)).getD []) []
        s1 = some (responses, s') ∧
      r = some (Value.obj (mapSet "responses" (Value.obj responses) newMethod)) := by
  simp only [mockMethod] at h
  cases h1 : rangeLoop copyField method [] s with
  | none => rw [h1] at h; cases h
  | some x =>
    obtain ⟨newMethod, s1⟩ := x
    rw [h1] at h
    simp only at h
    cases h2 : rangeLoop (mockResponse L fuel schemas)
        ((asObj (mapGet "responses" method)).getD []) [] s1 with
    | none => rw [h2] at h; cases h
    | some y =>
      obtain ⟨responses, s2⟩ := y
      rw [h2] at h
      simp only [Option.some.injEq, Prod.mk.injEq] at h
      refine ⟨newMethod, responses, s1, rfl, ?_, h.1.symm⟩
      rw [← h.2]
      exact h2

/-- What the loop over the paths stores for a path item that is a mapping. -/
theorem mockPathItem_obj (L : Lib) (fuel : Nat) (schemas : Obj) (p : String) (item : Obj)
    (s : Rng) (r : Option Value) (s' : Rng)
    (h : mockPathItem L fuel schemas p (Value.obj item) s = some (r, s')) :
    ∃ newPathItem, rangeLoop (mockMethod L fuel schemas) item [] s = some (newPathItem, s') ∧
      r = some (Value.obj newPathItem) := by
  simp only [mockPathItem] at h
  cases h1 : rangeLoop (mockMethod L fuel schemas) item [] s with
  | none => rw [h1] at h; cases h
  | some x =>
    obtain ⟨newPathItem, s1⟩ := x
    rw [h1] at h
    simp only [Option.some.injEq, Prod.mk.injEq] at h
    exact ⟨newPathItem, by rw [← h.2], h.1.symm⟩

/-- The output entry of a path item that is a mapping. -/
theorem pathItem_out (L : Lib) (fuel : Nat) (swagger : Obj) (s0 : Rng) (out : Obj) (s' : Rng)
    (paths : Obj) (p : String) (item : Obj)
    (hr : mockTree L fuel swagger s0 = some (out, s'))
    (hp : mapGet "paths" swagger = some (Value.obj paths)) (hdp : Distinct paths)
    (hi : mapGet p paths = some (Value.obj item)) :
    ∃ outPaths outItem t1 t2,
      mapGet "paths" out = some (Value.obj outPaths) ∧
      mapGet p outPaths = some (Value.obj outItem) ∧
      rangeLoop (mockMethod L fuel (schemasOf swagger (normalize swagger))) item [] t1 =
        some (outItem, t2) := by
  obtain ⟨outPaths, hloop, hget⟩ := mockTree_get_paths L fuel swagger s0 out s' hr
  rw [rawPathsOf_of_paths swagger paths hp] at hloop
  obtain ⟨t1, r, t2, hb, hres⟩ := rangeLoop_hit _ p (Value.obj item) paths [] s0 outPaths s'
    hloop hdp hi
  obtain ⟨newPathItem, hl, hr'⟩ := mockPathItem_obj L fuel _ p item t1 r t2 hb
  rcases hres with ⟨x, hx, hres⟩ | ⟨hn, _⟩
  · rw [hr'] at hx
    rw [← Option.some.inj hx] at hres
    exact ⟨outPaths, newPathItem, t1, t2, hget, hres, hl⟩
  · rw [hr'] at hn
    cases hn

/-- The output entry of a method that is a mapping: the copied fields with the
rebuilt `responses` stored over them. -/
theorem method_out (L : Lib) (fuel : Nat) (swagger : Obj) (s0 : Rng) (out : Obj) (s' : Rng)
    (paths : Obj) (p : String) (item : Obj) (m : String) (method : Obj)
    (hr : mockTree L fuel swagger s0 = some (out, s'))
    (hp : mapGet "paths" swagger = some (Value.obj paths)) (hdp : Distinct paths)
    (hi : mapGet p paths = some (Value.obj item)) (hdi : Distinct item)
    (hm : mapGet m item = some (Value.obj method)) :
    ∃ outPaths outItem newMethod responses t0 t1 t2,
      mapGet "paths" out = some (Value.obj outPaths) ∧
      mapGet p outPaths = some (Value.obj outItem) ∧
      mapGet m outItem = some (Value.obj (mapSet "responses" (Value.obj responses) newMethod)) ∧
      rangeLoop copyField method [] t0 = some (newMethod, t1) ∧
      rangeLoop (mockResponse L fuel (schemasOf swagger (normalize swagger)))
        ((asObj (mapGet "responses" method)).getD []) [] t1 = some (responses, t2) := by
  obtain ⟨outPaths, outItem, u1, u2, hget, hgi, hloop⟩ :=
    pathItem_out L fuel swagger s0 out s' paths p item hr hp hdp hi
  obtain ⟨t0, r, t2, hb, hres⟩ := rangeLoop_hit _ m (Value.obj method) item [] u1 outItem u2
    hloop hdi hm
  obtain ⟨newMethod, responses, t1, hc, hl, hr'⟩ := mockMethod_obj L fuel _ m method t0 r t2 hb
  rcases hres with ⟨x, hx, hres⟩ | ⟨hn, _⟩
  · rw [hr'] at hx
    rw [← Option.some.inj hx] at hres
    exact ⟨outPaths, outItem, newMethod, responses, t0, t1, t2, hget, hgi, hres, hc, hl⟩
  · rw [hr'] at hn
    cases hn

/-- C3: the augmenter changes no method-level key other than `responses`.  For
every path and every method of the input that is a mapping, the output has that
method, its keys are the input method's keys plus `responses`, and under every
key other than `responses` the output value is the input value. -/
theorem method_fields_kept (L : Lib) (fuel : Nat) (swagger : Obj) (s0 : Rng) (out : Obj)
    (s' : Rng) (paths : Obj) (p : String) (item : Obj) (m : String) (method : Obj)
    (hr : mockTree L fuel swagger s0 = some (out, s'))
    (hp : mapGet "paths" swagger = some (Value.obj paths)) (hdp : Distinct paths)
    (hi : mapGet p paths = some (Value.obj item)) (hdi : Distinct item)
    (hm : mapGet m item = some (Value.obj method)) (hdm : Distinct method) :
    ∃ outMethod,
      getPath ["paths", p, m] (Value.obj out) = some (Value.obj outMethod) ∧
      (∀ k, k ≠ "responses" → mapGet k outMethod = mapGet k method) ∧
      (∀ k, k ∈ keys outMethod ↔ k ∈ keys method ∨ k = "responses") := by
  obtain ⟨outPaths, outItem, newMethod, responses, t0, t1, t2, hget, hgi, hgm, hc, _⟩ :=
    method_out L fuel swagger s0 out s' paths p item m method hr hp hdp hi hdi hm
  have hcopy := copy_loop method t0 newMethod t1 hdm hc
  have hne : ∀ k, k ≠ "responses" →
      mapGet k (mapSet "responses" (Value.obj responses) newMethod) = mapGet k method := by
    intro k hk
    rw [mapGet_mapSet_ne _ _ hk, hcopy k, if_neg hk]
  refine ⟨_, ?_, hne, ?_⟩
  · simp only [getPath, hget, hgi, hgm]
  · intro k
    by_cases hk : k = "responses"
    · subst hk
      simp only [or_true, iff_true]
      exact (mem_keys_iff _ _).2 ⟨_, mapGet_mapSet_self _ _ _⟩
    · simp only [hk, or_false]
      rw [mem_keys_iff, mem_keys_iff, hne k hk]

/-- Witness of C3 on a 3.x document: the `get` method of `/items` keeps `summary`
and `operationId`. -/
theorem method_fields_kept_witness :
    mockTree sampleLib 1 storeDoc 0 = some (storeOut, 2) ∧
    mapGet "paths" storeDoc = some (Value.obj
      [("/items", Value.obj [("summary", Value.str "Items"), ("get", Value.obj storeGet)]),
       ("x-internal", Value.bool true)]) ∧
    ∃ outMethod,
      getPath ["paths", "/items", "get"] (Value.obj storeOut) = some (Value.obj outMethod) ∧
      (∀ k, k ≠ "responses" → mapGet k outMethod = mapGet k storeGet) ∧
      (∀ k, k ∈ keys outMethod ↔ k ∈ keys storeGet ∨ k = "responses") :=
  ⟨rfl, rfl, method_fields_kept sampleLib 1 storeDoc 0 storeOut 2 _ "/items" _ "get" storeGet
    rfl rfl (by decide) rfl (by decide) rfl (by decide)⟩

/-- Keys of the map built by a loop whose body stores a value exactly for the
entries satisfying `P`. -/
theorem rangeLoop_keys (body : String → Value → Rng → Option (Option Value × Rng))
    (P : Value → Prop)
    (hbody : ∀ k v s r s2, body k v s = some (r, s2) → (r.isSome = true ↔ P v))
    (m : Obj) (s : Rng) (out : Obj) (s' : Rng) (hd : Distinct m)
    (h : rangeLoop body m [] s = some (out, s')) (k : String) :
    k ∈ keys out ↔ ∃ v, mapGet k m = some v ∧ P v := by
  rw [mem_keys_iff]
  constructor
  · rintro ⟨x, hx⟩
    cases hg : mapGet k m with
    | none =>
      rw [rangeLoop_frame body k m [] s out s' h ((mapGet_eq_none_iff k m).1 hg)] at hx
      simp [mapGet] at hx
    | some v =>
      obtain ⟨s1, r, s2, hb, hres⟩ := rangeLoop_hit body k v m [] s out s' h hd hg
      rcases hres with ⟨y, hy, _⟩ | ⟨_, hres⟩
      · exact ⟨v, rfl, (hbody k v s1 r s2 hb).1 (by rw [hy]; rfl)⟩
      · rw [hres] at hx
        simp [mapGet] at hx
  · rintro ⟨v, hg, hP⟩
    obtain ⟨s1, r, s2, hb, hres⟩ := rangeLoop_hit body k v m [] s out s' h hd hg
    have hsome := (hbody k v s1 r s2 hb).2 hP
    rcases hres with ⟨y, _, hres⟩ | ⟨hn, _⟩
    · exact ⟨y, hres⟩
    · rw [hn] at hsome
      cases hsome

theorem mockPathItem_stores (L : Lib) (fuel : Nat) (schemas : Obj) (k : String) (v : Value)
    (s : Rng) (r : Option Value) (s2 : Rng)
    (h : mockPathItem L fuel schemas k v s = some (r, s2)) :
    r.isSome = true ↔ ∃ item, v = Value.obj item := by
  cases v with
  | obj item =>
    obtain ⟨_, _, hr⟩ := mockPathItem_obj L fuel schemas k item s r s2 h
    simp [hr]
  | _ =>
    simp only [mockPathItem, Option.some.injEq, Prod.mk.injEq] at h
    simp [← h.1]

theorem mockMethod_stores (L : Lib) (fuel : Nat) (schemas : Obj) (k : String) (v : Value)
    (s : Rng) (r : Option Value) (s2 : Rng)
    (h : mockMethod L fuel schemas k v s = some (r, s2)) :
    r.isSome = true ↔ ∃ method, v = Value.obj method := by
  cases v with
  | obj method =>
    obtain ⟨_, _, _, _, _, hr⟩ := mockMethod_obj L fuel schemas k method s r s2 h
    simp [hr]
  | _ =>
    simp only [mockMethod, Option.some.injEq, Prod.mk.injEq] at h
    simp [← h.1]

/-- C4 (amended): for a document whose `openapi` is a string starting with "3.",
every top-level key other than `paths` (so `openapi` and `components.schemas`)
is unchanged; the output `paths` has exactly the path keys whose input entries
are mappings; under each such path exactly the keys whose input entries are
mappings (the methods); and each such method keeps every field other than
`responses`, which is rebuilt by the augmenter. -/
theorem openapi3_passthrough (L : Lib) (fuel : Nat) (swagger : Obj) (s0 : Rng) (out : Obj)
    (s' : Rng)
    (hv : isOpenAPI3 swagger = true)
    (hr : mockTree L fuel swagger s0 = some (out, s')) :
    (∀ k, k ≠ "paths" → mapGet k out = mapGet k swagger) ∧
    mapGet "openapi" out = mapGet "openapi" swagger ∧
    getPath ["components", "schemas"] (Value.obj out) =
      getPath ["components", "schemas"] (Value.obj swagger) ∧
    (∀ paths, mapGet "paths" swagger = some (Value.obj paths) → Distinct paths →
      ∃ outPaths, mapGet "paths" out = some (Value.obj outPaths) ∧
        (∀ p, p ∈ keys outPaths ↔ ∃ item, mapGet p paths = some (Value.obj item)) ∧
        (∀ p item, mapGet p paths = some (Value.obj item) → Distinct item →
          ∃ outItem, mapGet p outPaths = some (Value.obj outItem) ∧
            (∀ m, m ∈ keys outItem ↔ ∃ method, mapGet m item = some (Value.obj method)) ∧
            (∀ m method, mapGet m item = some (Value.obj method) → Distinct method →
              ∃ outMethod, mapGet m outItem = some (Value.obj outMethod) ∧
                ∀ k, k ≠ "responses" → mapGet k outMethod = mapGet k method))) := by
  have hne : ∀ k, k ≠ "paths" → mapGet k out = mapGet k swagger := by
    intro k hk
    rw [mockTree_get_ne L fuel swagger s0 out s' hr k hk, normalize_of_openAPI3 swagger hv]
  refine ⟨hne, hne _ (by decide), ?_, ?_⟩
  · simp only [getPath, hne "components" (by decide)]
  · intro paths hp hdp
    obtain ⟨outPaths, hloop, hget⟩ := mockTree_get_paths L fuel swagger s0 out s' hr
    rw [rawPathsOf_of_paths swagger paths hp] at hloop
    refine ⟨outPaths, hget, ?_, ?_⟩
    · intro p
      rw [rangeLoop_keys _ (fun v => ∃ item, v = Value.obj item)
        (mockPathItem_stores L fuel _) paths s0 outPaths s' hdp hloop p]
      constructor
      · rintro ⟨v, hg, item, rfl⟩
        exact ⟨item, hg⟩
      · rintro ⟨item, hg⟩
        exact ⟨_, hg, item, rfl⟩
    · intro p item hi hdi
      obtain ⟨outPaths', outItem, t1, t2, hget', hgi, hl⟩ :=
        pathItem_out L fuel swagger s0 out s' paths p item hr hp hdp hi
      rw [hget] at hget'
      cases hget'
      refine ⟨outItem, hgi, ?_, ?_⟩
      · intro m
        rw [rangeLoop_keys _ (fun v => ∃ method, v = Value.obj method)
          (mockMethod_stores L fuel _) item t1 outItem t2 hdi hl m]
        constructor
        · rintro ⟨v, hg, method, rfl⟩
          exact ⟨method, hg⟩
        · rintro ⟨method, hg⟩
          exact ⟨_, hg, method, rfl⟩
      · intro m method hm hdm
        obtain ⟨outPaths2, outItem2, newMethod, responses, u0, u1, u2, hg1, hg2, hg3, hc, _⟩ :=
          method_out L fuel swagger s0 out s' paths p item m method hr hp hdp hi hdi hm
        rw [hget] at hg1
        cases hg1
        rw [hgi] at hg2
        cases hg2
        refine ⟨_, hg3, ?_⟩
        intro k hk
        rw [mapGet_mapSet_ne _ _ hk, copy_loop method u0 newMethod u1 hdm hc k, if_neg hk]

/-- Witness of the amended C4 on `storeDoc`. -/
theorem openapi3_passthrough_witness :
    isOpenAPI3 storeDoc = true ∧
    mockTree sampleLib 1 storeDoc 0 = some (storeOut, 2) ∧
    mapGet "openapi" storeOut = mapGet "openapi" storeDoc ∧
    getPath ["components", "schemas"] (Value.obj storeOut) =
      getPath ["components", "schemas"] (Value.obj storeDoc) :=
  ⟨rfl, rfl, (openapi3_passthrough sampleLib 1 storeDoc 0 storeOut 2 rfl rfl).2.1,
    (openapi3_passthrough sampleLib 1 storeDoc 0 storeOut 2 rfl rfl).2.2.1⟩

/-- C4 as stated fails on a 3.x document: the entry `x-internal` of `paths` and
the entry `summary` of the path item `/items` are not mappings and are left
out, and the `content` of the "200" response is removed rather than added to. -/
theorem openapi3_passthrough_counterexample :
    isOpenAPI3 storeDoc = true ∧
    mockTree sampleLib 1 storeDoc 0 = some (storeOut, 2) ∧
    getPath ["paths", "x-internal"] (Value.obj storeDoc) = some (Value.bool true) ∧
    getPath ["paths", "x-internal"] (Value.obj storeOut) = none ∧
    getPath ["paths", "/items", "summary"] (Value.obj storeDoc) = some (Value.str "Items") ∧
    getPath ["paths", "/items", "summary"] (Value.obj storeOut) = none ∧
    (getPath ["paths", "/items", "get", "responses", "200", "content"]
      (Value.obj storeDoc)).isSome = true ∧
    getPath ["paths", "/items", "get", "responses", "200", "content"] (Value.obj storeOut) = none :=
  ⟨rfl, rfl, rfl, rfl, rfl, rfl, rfl, rfl⟩

/-- What the loop over the responses stores for a "200"/"201" response whose
`schema.$ref` names a mapping of the registry. -/
theorem mockResponse_success (L : Lib) (fuel : Nat) (schemas : Obj) (code : String)
    (response schema : Obj) (ref : String) (d : Obj) (s : Rng) (r : Option Value) (s2 : Rng)
    (hc : code = "200" ∨ code = "201")
    (hs : mapGet "schema" response = some (Value.obj schema))
    (hf : mapGet "$ref" schema = some (Value.str ref))
    (hd : mapGet (resolveRef ref) schemas = some (Value.obj d))
    (h : mockResponse L fuel schemas code (Value.obj response) s = some (r, s2)) :
    ∃ example_, generateFakeObject L fuel d schemas s = some (example_, s2) ∧
      r = some (Value.obj [("description", idx response "description"),
                           ("content", successContent ref example_)]) := by
  simp only [mockResponse, hc, if_true, hs, asObj, hf, asStr, hd] at h
  cases hg : generateFakeObject L fuel d schemas s with
  | none => rw [hg] at h; cases h
  | some x =>
    obtain ⟨example_, s1⟩ := x
    rw [hg] at h
    simp only [Option.some.injEq, Prod.mk.injEq] at h
    refine ⟨example_, by rw [← h.2], ?_⟩
    rw [← h.1]
    simp [mapSet]

theorem generateFakeValue_id (L : Lib) (s : Rng) (h : L.toLower "id" = "id") :
    generateFakeValue L "id" s = genValue L Gen.uuid s := by
  unfold generateFakeValue
  simp only [h]
  rfl

theorem generateFakeValue_name (L : Lib) (s : Rng) (h : L.toLower "name" = "name") :
    generateFakeValue L "name" s = genValue L Gen.name s := by
  unfold generateFakeValue
  simp only [h]
  rfl

/-- The example synthesized for the schema `Pet`: `id` by the UUID rule, then
`name` by the full-name rule. -/
theorem generateFakeObject_pet (L : Lib) (n : Nat) (defs : Obj) (s : Rng)
    (hid : L.toLower "id" = "id") (hname : L.toLower "name" = "name") :
    generateFakeObject L (n + 1) petDef defs s =
      some ([("id", Value.str (L.gen Gen.uuid s).1),
             ("name", Value.str (L.gen Gen.name (L.gen Gen.uuid s).2).1)],
            (L.gen Gen.name (L.gen Gen.uuid s).2).2) := by
  simp [generateFakeObject, petDef, mapGet, asObj, asStr, rangeLoop, fakeProperty,
    generateFakeValue_id L _ hid, generateFakeValue_name L _ hname, genValue, mapSet]

/-- The end-to-end document of the specification, for any library that leaves
the lower-case names `id` and `name` as they are. -/
theorem mockTree_pet (L : Lib) (n : Nat) (s0 : Rng)
    (hid : L.toLower "id" = "id") (hname : L.toLower "name" = "name") :
    mockTree L (n + 1) petDoc s0 =
      some (petOutWith (L.gen Gen.uuid s0).1 (L.gen Gen.name (L.gen Gen.uuid s0).2).1,
            (L.gen Gen.name (L.gen Gen.uuid s0).2).2) := by
  have hres : resolveRef "#/definitions/Pet" = "Pet" := by decide
  simp [mockTree, petDoc, normalize, isOpenAPI3, mapGet, asStr, asObj, idx, mapSet, schemasOf,
    rawPathsOf, rangeLoop, mockPathItem, mockMethod, copyField, mockResponse, hres,
    generateFakeObject_pet L n _ _ hid hname, petOutWith, successContent]
  decide

/-- C9: for a "200" or "201" response that is a mapping whose `schema.$ref` is a
string r whose last segment names a mapping d of the schema registry, the output
response is `description` plus `content["application/json"]` with `schema.$ref`
equal to r with a leading "#/definitions/" rewritten to "#/components/schemas/"
and `examples.auto_example.value` equal to an object that `generateFakeObject`
synthesizes from d.  On the end-to-end Pet document that value has exactly the
keys `id`, from the UUID generator, and `name`, from the full-name generator. -/
theorem success_example_attached (L : Lib) :
    (∀ (fuel : Nat) (swagger : Obj) (s0 : Rng) (out : Obj) (s' : Rng) (paths : Obj) (p : String)
      (item : Obj) (m : String) (method resp : Obj) (code : String) (response schema : Obj)
      (r : String) (d : Obj),
      mockTree L fuel swagger s0 = some (out, s') →
      mapGet "paths" swagger = some (Value.obj paths) → Distinct paths →
      mapGet p paths = some (Value.obj item) → Distinct item →
      mapGet m item = some (Value.obj method) →
      mapGet "responses" method = some (Value.obj resp) → Distinct resp →
      (code = "200" ∨ code = "201") →
      mapGet code resp = some (Value.obj response) →
      mapGet "schema" response = some (Value.obj schema) →
      mapGet "$ref" schema = some (Value.str r) →
      mapGet (resolveRef r) (schemasOf swagger (normalize swagger)) = some (Value.obj d) →
      ∃ example_ s1 s2,
        generateFakeObject L fuel d (schemasOf swagger (normalize swagger)) s1 =
          some (example_, s2) ∧
        getPath ["paths", p, m, "responses", code] (Value.obj out) =
          some (Value.obj [("description", idx response "description"),
                           ("content", successContent r example_)]) ∧
        getPath ["paths", p, m, "responses", code, "content", "application/json", "schema",
          "$ref"] (Value.obj out) = some (Value.str (convertRefPath r)) ∧
        getPath ["paths", p, m, "responses", code, "content", "application/json", "examples",
          "auto_example", "value"] (Value.obj out) = some (Value.obj example_)) ∧
    (∀ (n : Nat) (s0 : Rng), L.toLower "id" = "id" → L.toLower "name" = "name" →
      ∃ out s', mockTree L (n + 1) petDoc s0 = some (out, s') ∧
        getPath ["paths", "/pets", "get", "responses", "200", "content", "application/json",
          "examples", "auto_example", "value"] (Value.obj out) =
          some (Value.obj [("id", Value.str (L.gen Gen.uuid s0).1),
                           ("name", Value.str (L.gen Gen.name (L.gen Gen.uuid s0).2).1)])) := by
  constructor
  · intro fuel swagger s0 out s' paths p item m method resp code response schema r d
      hr hp hdp hi hdi hm hresp hdr hc hcode hs hf hd
    obtain ⟨outPaths, outItem, newMethod, responses, t0, t1, t2, hg1, hg2, hg3, _, hl⟩ :=
      method_out L fuel swagger s0 out s' paths p item m method hr hp hdp hi hdi hm
    simp only [hresp, asObj, Option.getD_some] at hl
    obtain ⟨u1, res, u2, hb, hres⟩ := rangeLoop_hit _ code (Value.obj response) resp [] t1
      responses t2 hl hdr hcode
    obtain ⟨example_, hgen, hres'⟩ :=
      mockResponse_success L fuel _ code response schema r d u1 res u2 hc hs hf hd hb
    have hget : mapGet code responses = some (Value.obj
        [("description", idx response "description"), ("content", successContent r example_)]) := by
      rcases hres with ⟨x, hx, hres⟩ | ⟨hn, _⟩
      · rw [hres'] at hx
        rw [← Option.some.inj hx] at hres
        exact hres
      · rw [hres'] at hn
        cases hn
    refine ⟨example_, u1, u2, hgen, ?_, ?_, ?_⟩ <;>
      simp [getPath, hg1, hg2, hg3, mapGet_mapSet_self, hget, mapGet, successContent]
  · intro n s0 hid hname
    exact ⟨_, _, mockTree_pet L n s0 hid hname, rfl⟩

/-- Witness of C9 on the end-to-end document of the specification. -/
theorem success_example_attached_witness :
    mockTree sampleLib 1 petDoc 0 = some (petOut, 2) ∧
    mapGet (resolveRef "#/definitions/Pet") (schemasOf petDoc (normalize petDoc)) =
      some (Value.obj petDef) ∧
    (∃ example_ s1 s2,
      generateFakeObject sampleLib 1 petDef (schemasOf petDoc (normalize petDoc)) s1 =
        some (example_, s2) ∧
      getPath ["paths", "/pets", "get", "responses", "200"] (Value.obj petOut) =
        some (Value.obj [("description", Value.null),
                         ("content", successContent "#/definitions/Pet" example_)]) ∧
      getPath ["paths", "/pets", "get", "responses", "200", "content", "application/json",
        "schema", "$ref"] (Value.obj petOut) =
        some (Value.str (convertRefPath "#/definitions/Pet")) ∧
      getPath ["paths", "/pets", "get", "responses", "200", "content", "application/json",
        "examples", "auto_example", "value"] (Value.obj petOut) = some (Value.obj example_)) ∧
    (∃ out s', mockTree sampleLib 1 petDoc 0 = some (out, s') ∧
      getPath ["paths", "/pets", "get", "responses", "200", "content", "application/json",
        "examples", "auto_example", "value"] (Value.obj out) =
        some (Value.obj [("id", Value.str (sampleLib.gen Gen.uuid 0).1),
                         ("name", Value.str (sampleLib.gen Gen.name
                            (sampleLib.gen Gen.uuid 0).2).1)])) :=
  ⟨rfl, rfl,
    (success_example_attached sampleLib).1 1 petDoc 0 petOut 2
      [("/pets", Value.obj [("get", Value.obj [("responses", Value.obj
        [("200", Value.obj [("schema", Value.obj [("$ref", Value.str "#/definitions/Pet")])])])])])]
      "/pets"
      [("get", Value.obj [("responses", Value.obj
        [("200", Value.obj [("schema", Value.obj [("$ref", Value.str "#/definitions/Pet")])])])])]
      "get"
      [("responses", Value.obj
        [("200", Value.obj [("schema", Value.obj [("$ref", Value.str "#/definitions/Pet")])])])]
      [("200", Value.obj [("schema", Value.obj [("$ref", Value.str "#/definitions/Pet")])])]
      "200"
      [("schema", Value.obj [("$ref", Value.str "#/definitions/Pet")])]
      [("$ref", Value.str "#/definitions/Pet")]
      "#/definitions/Pet" petDef
      rfl rfl (by decide) rfl (by decide) rfl rfl (by decide) (Or.inl rfl) rfl rfl rfl rfl,
    (success_example_attached sampleLib).2 0 0 rfl rfl⟩

/-! ## Field-name heuristic -/

theorem char_toLower_idem (c : Char) : c.toLower.toLower = c.toLower := by
  by_cases h : c.toNat ≥ 65 ∧ c.toNat ≤ 90
  · obtain ⟨h1, h2⟩ := h
    have hc : c = Char.ofNat c.toNat := by simp
    rw [hc]
    generalize c.toNat = n at h1 h2
    interval_cases n <;> decide
  · have : c.toLower = c := by
      unfold Char.toLower
      simp only [h, if_false]
    rw [this, this]

theorem sampleLib_toLower_idem (x : String) :
    sampleLib.toLower (sampleLib.toLower x) = sampleLib.toLower x := by
  show String.mk ((String.mk (x.toList.map Char.toLower)).toList.map Char.toLower) =
    String.mk (x.toList.map Char.toLower)
  simp [List.map_map, Function.comp_def, char_toLower_idem]

/-- C10: `generateFakeValue` picks the generator of the first rule of the
specification's table that matches the lower-cased field name (default: a
word); so a name whose lower-cased form contains "email" and none of "date",
"time", "uuid", "id" gets the email generator's output; and, lower-casing being
idempotent, a field name and its lower-cased form select the same rule. -/
theorem generateFakeValue_first_match (L : Lib) (fieldName : String) (s : Rng) :
    generateFakeValue L fieldName s =
      genValue L (firstMatch heuristicTable (L.toLower fieldName)) s ∧
    (contains (L.toLower fieldName) "email" = true →
      contains (L.toLower fieldName) "date" = false →
      contains (L.toLower fieldName) "time" = false →
      contains (L.toLower fieldName) "uuid" = false →
      contains (L.toLower fieldName) "id" = false →
      generateFakeValue L fieldName s = genValue L Gen.email s) ∧
    ((∀ x, L.toLower (L.toLower x) = L.toLower x) →
      generateFakeValue L (L.toLower fieldName) s = generateFakeValue L fieldName s) := by
  refine ⟨?_, ?_, ?_⟩
  · unfold generateFakeValue
    simp only [heuristicTable, firstMatch, apply_ite (fun g => genValue L g s)]
  · intro h1 h2 h3 h4 h5
    unfold generateFakeValue
    simp [h1, h2, h3, h4, h5]
  · intro h
    unfold generateFakeValue
    simp only [h]

/-- Witness of C10: the field name `userEmail`. -/
theorem generateFakeValue_first_match_witness :
    contains (sampleLib.toLower "userEmail") "email" = true ∧
    contains (sampleLib.toLower "userEmail") "date" = false ∧
    contains (sampleLib.toLower "userEmail") "time" = false ∧
    contains (sampleLib.toLower "userEmail") "uuid" = false ∧
    contains (sampleLib.toLower "userEmail") "id" = false ∧
    generateFakeValue sampleLib "userEmail" 0 = genValue sampleLib Gen.email 0 ∧
    generateFakeValue sampleLib (sampleLib.toLower "userEmail") 0 =
      generateFakeValue sampleLib "userEmail" 0 :=
  ⟨by decide, by decide, by decide, by decide, by decide,
    (generateFakeValue_first_match sampleLib "userEmail" 0).2.1
      (by decide) (by decide) (by decide) (by decide) (by decide),
    (generateFakeValue_first_match sampleLib "userEmail" 0).2.2 sampleLib_toLower_idem⟩

/-! ## Spec registry -/

/-- Once a branch has its content, the call either fails and leaves the server
as it was, or writes what the mock block gave and publishes the record. -/
theorem storeAndPublish_cases (L : Lib) (W : World) (fuel : Nat) (srv : Server) (disk : Disk)
    (spec : OpenAPISpec) (content msg : String) (res : Except String String) (srv' : Server)
    (disk' : Disk)
    (h : storeAndPublish L W fuel srv disk spec content msg = some (res, srv', disk')) :
    (∃ e, res = Except.error e ∧ srv' = srv) ∨
    (∃ content', applyMock L W fuel spec.Mock content = some content' ∧
      res = Except.ok (publish W srv spec
        (W.join srv.specDirectory (registrationName spec ++ ".json")) content').1 ∧
      srv' = (publish W srv spec
        (W.join srv.specDirectory (registrationName spec ++ ".json")) content').2 ∧
      disk' = mapSet (W.join srv.specDirectory (registrationName spec ++ ".json")) content'
        disk) := by
  unfold storeAndPublish at h
  simp only at h
  cases hm : applyMock L W fuel spec.Mock content with
  | none => rw [hm] at h; cases h
  | some content' =>
    rw [hm] at h
    simp only at h
    unfold persist at h
    cases hc : W.create (W.join srv.specDirectory (registrationName spec ++ ".json")) with
    | error e =>
      rw [hc] at h
      simp only [Option.some.injEq, Prod.mk.injEq] at h
      exact Or.inl ⟨_, h.1.symm, h.2.1.symm⟩
    | ok u =>
      rw [hc] at h
      simp only at h
      cases hw : W.write (W.join srv.specDirectory (registrationName spec ++ ".json")) content' with
      | error e =>
        rw [hw] at h
        simp only [Option.some.injEq, Prod.mk.injEq] at h
        exact Or.inl ⟨_, h.1.symm, h.2.1.symm⟩
      | ok u' =>
        rw [hw] at h
        simp only [Option.some.injEq, Prod.mk.injEq] at h
        exact Or.inr ⟨content', rfl, h.1.symm, h.2.1.symm, h.2.2.symm⟩

/-- A call of `RegisterSpec` that returns either fails and leaves the server as
it was, or has acquired the source bytes, passed them through the mock block,
written the outcome to the file of the resource and published the record. -/
theorem RegisterSpec_cases (L : Lib) (W : World) (fuel : Nat) (srv : Server) (disk : Disk)
    (spec : OpenAPISpec) (res : Except String String) (srv' : Server) (disk' : Disk)
    (h : RegisterSpec L W fuel srv disk spec = some (res, srv', disk')) :
    (∃ e, res = Except.error e ∧ srv' = srv) ∨
    (∃ src content', sourceBytes W spec = some src ∧
      applyMock L W fuel spec.Mock src = some content' ∧
      res = Except.ok (publish W srv spec
        (W.join srv.specDirectory (registrationName spec ++ ".json")) content').1 ∧
      srv' = (publish W srv spec
        (W.join srv.specDirectory (registrationName spec ++ ".json")) content').2 ∧
      disk' = mapSet (W.join srv.specDirectory (registrationName spec ++ ".json")) content'
        disk) := by
  unfold RegisterSpec at h
  simp only at h
  by_cases hc : spec.SpecContent ≠ ""
  · rw [if_pos hc] at h
    rcases storeAndPublish_cases L W fuel srv disk spec _ _ res srv' disk' h with h1 | ⟨c, h1⟩
    · exact Or.inl h1
    · exact Or.inr ⟨spec.SpecContent, c, by simp [sourceBytes, hc], h1⟩
  · rw [if_neg hc] at h
    by_cases hp : spec.SpecPath ≠ ""
    · rw [if_pos hp] at h
      have hp' : ¬ spec.SpecPath = "" := hp
      by_cases hu : (hasPrefix spec.SpecPath "http://" || hasPrefix spec.SpecPath "https://") = true
      · rw [if_pos hu] at h
        cases hg : W.httpGet spec.SpecPath with
        | error e =>
          rw [hg] at h
          simp only [Option.some.injEq, Prod.mk.injEq] at h
          exact Or.inl ⟨_, h.1.symm, h.2.1.symm⟩
        | ok r =>
          obtain ⟨statusCode, body⟩ := r
          rw [hg] at h
          simp only at h
          by_cases hs : statusCode ≠ 200
          · rw [if_pos hs] at h
            simp only [Option.some.injEq, Prod.mk.injEq] at h
            exact Or.inl ⟨_, h.1.symm, h.2.1.symm⟩
          · rw [if_neg hs] at h
            have hs' : statusCode = 200 := not_not.1 hs
            cases body with
            | error e =>
              simp only [Option.some.injEq, Prod.mk.injEq] at h
              exact Or.inl ⟨_, h.1.symm, h.2.1.symm⟩
            | ok content =>
              simp only at h
              rcases storeAndPublish_cases L W fuel srv disk spec _ _ res srv' disk' h
                with h1 | ⟨c, h1⟩
              · exact Or.inl h1
              · refine Or.inr ⟨content, c, ?_, h1⟩
                simp [sourceBytes, hc, hp', hu, hg, hs']
      · rw [if_neg hu] at h
        cases hg : W.openFile spec.SpecPath with
        | error e =>
          rw [hg] at h
          simp only [Option.some.injEq, Prod.mk.injEq] at h
          exact Or.inl ⟨_, h.1.symm, h.2.1.symm⟩
        | ok r =>
          rw [hg] at h
          cases r with
          | error e =>
            simp only [Option.some.injEq, Prod.mk.injEq] at h
            exact Or.inl ⟨_, h.1.symm, h.2.1.symm⟩
          | ok content =>
            simp only at h
            rcases storeAndPublish_cases L W fuel srv disk spec _ _ res srv' disk' h
              with h1 | ⟨c, h1⟩
            · exact Or.inl h1
            · refine Or.inr ⟨content, c, ?_, h1⟩
              simp [sourceBytes, hc, hp', hu, hg]
    · rw [if_neg hp] at h
      simp only [Option.some.injEq, Prod.mk.injEq] at h
      exact Or.inl ⟨_, h.1.symm, h.2.1.symm⟩

/-- C6: `RegisterSpec` is atomic on failure with respect to the published map.
If the call returns an error, the server, and with it the map of published
records, is as before the call: every name reads as it did.  A record whose
`specPath` and `specContent` are both empty always makes the call return an
error, with nothing written. -/
theorem registerSpec_failure_atomic (L : Lib) (W : World) (fuel : Nat) (srv : Server) (disk : Disk)
    (spec : OpenAPISpec) :
    (∀ e srv' disk', RegisterSpec L W fuel srv disk spec = some (Except.error e, srv', disk') →
      srv'.specs = srv.specs ∧ ∀ name, mapGet name srv'.specs = mapGet name srv.specs) ∧
    (spec.SpecPath = "" → spec.SpecContent = "" →
      ∃ e, RegisterSpec L W fuel srv disk spec = some (Except.error e, srv, disk)) := by
  constructor
  · intro e srv' disk' h
    rcases RegisterSpec_cases L W fuel srv disk spec _ srv' disk' h with ⟨_, _, hs⟩ | ⟨_, _, _, _, hr, _⟩
    · rw [hs]
      exact ⟨rfl, fun _ => rfl⟩
    · cases hr
  · intro hp hc
    refine ⟨"neither specPath nor specContent provided in OpenAPISpec " ++ registrationName spec, ?_⟩
    unfold RegisterSpec
    simp only [hp, hc, ne_eq, not_true_eq_false, if_false]

/-- Witness of C6: a resource with neither path nor content, and a resource
whose file cannot be created, against a registry that already publishes
`ns1-pet`; the record stays as it was. -/
theorem registerSpec_failure_atomic_witness :
    emptySpec.SpecPath = "" ∧ emptySpec.SpecContent = "" ∧
    (∃ e, RegisterSpec sampleLib sampleWorld 0 sampleServer [] emptySpec =
      some (Except.error e, sampleServer, [])) ∧
    RegisterSpec sampleLib readOnlyWorld 0 sampleServer [] urlSpec =
      some (Except.error "failed to create spec file: read-only file system", sampleServer, []) ∧
    (sampleServer.specs = sampleServer.specs ∧
      ∀ name, mapGet name sampleServer.specs = mapGet name sampleServer.specs) :=
  ⟨rfl, rfl,
    (registerSpec_failure_atomic sampleLib sampleWorld 0 sampleServer [] emptySpec).2 rfl rfl,
    rfl,
    (registerSpec_failure_atomic sampleLib readOnlyWorld 0 sampleServer [] urlSpec).1
      "failed to create spec file: read-only file system" sampleServer [] rfl⟩

/-- C7: on a successful `RegisterSpec` for a resource with namespace NS and name
N, with name = NS + "-" + N and base = the external URL when it is not empty,
else "http://redokube." + NS + ".svc:" + port: the returned URL is
base + "/docs/" + name; the published map holds under `name` the new record,
with the resource's title and `SpecURL` = base + "/specs/" + name + ".json",
whatever was there before; and every other name reads as before the call. -/
theorem registerSpec_success (L : Lib) (W : World) (fuel : Nat) (srv : Server) (disk : Disk)
    (spec : OpenAPISpec) (url : String) (srv' : Server) (disk' : Disk) (base : String)
    (hbase : base = if srv.externalURL ≠ "" then srv.externalURL
      else "http://redokube." ++ spec.Namespace ++ ".svc:" ++ toString srv.port)
    (h : RegisterSpec L W fuel srv disk spec = some (Except.ok url, srv', disk')) :
    url = base ++ "/docs/" ++ (spec.Namespace ++ "-" ++ spec.Name) ∧
    (∃ info, mapGet (spec.Namespace ++ "-" ++ spec.Name) srv'.specs = some info ∧
      info.Title = spec.Title ∧
      info.SpecPath = spec.SpecPath ∧
      info.SpecURL = base ++ "/specs/" ++ (spec.Namespace ++ "-" ++ spec.Name) ++ ".json") ∧
    (∀ other, other ≠ spec.Namespace ++ "-" ++ spec.Name →
      mapGet other srv'.specs = mapGet other srv.specs) ∧
    srv'.port = srv.port ∧ srv'.externalURL = srv.externalURL ∧
    srv'.specDirectory = srv.specDirectory := by
  have hb : baseURLOf srv spec = base := by
    rw [hbase]
    unfold baseURLOf
    by_cases he : srv.externalURL = "" <;> simp [he]
  rcases RegisterSpec_cases L W fuel srv disk spec _ srv' disk' h with
    ⟨_, hr, _⟩ | ⟨src, content', _, _, hr, hs, _⟩
  · cases hr
  · simp only [publish, Except.ok.injEq, hb] at hr hs
    subst hs
    refine ⟨hr, ⟨_, mapGet_mapSet_self _ _ _, rfl, rfl, ?_⟩, ?_, rfl, rfl, rfl⟩
    · simp only [registrationName, String.append_assoc]
    · intro other ho
      exact mapGet_mapSet_ne _ _ ho

/-- Witness of C7: a URL resource replaces the record published as `ns1-pet`. -/
theorem registerSpec_success_witness :
    RegisterSpec sampleLib sampleWorld 0 sampleServer [] urlSpec =
      some (Except.ok "http://redokube.ns1.svc:8080/docs/ns1-pet",
        { sampleServer with specs := [("ns1-pet",
            { Title := "Pets v2", SpecPath := "https://example.com/pet.yaml",
              SpecURL := "http://redokube.ns1.svc:8080/specs/ns1-pet.json", Document := none })] },
        [("/tmp/redokube-specs/ns1-pet.json", "openapi: 3.1.0")]) ∧
    "http://redokube.ns1.svc:8080/docs/ns1-pet" =
      "http://redokube.ns1.svc:8080" ++ "/docs/" ++ (urlSpec.Namespace ++ "-" ++ urlSpec.Name) :=
  ⟨rfl, (registerSpec_success sampleLib sampleWorld 0 sampleServer [] urlSpec _ _ _
    "http://redokube.ns1.svc:8080" (by decide) rfl).1⟩

/-- When the mock block hands back the content it was given, the rest of the
call is the one of the same resource with mocking switched off. -/
theorem storeAndPublish_mock_off (L : Lib) (W : World) (fuel : Nat) (srv : Server) (disk : Disk)
    (spec : OpenAPISpec) (content msg : String)
    (hm : applyMock L W fuel spec.Mock content = some content) :
    storeAndPublish L W fuel srv disk spec content msg =
      storeAndPublish L W fuel srv disk { spec with Mock := false } content msg := by
  unfold storeAndPublish
  simp only [hm]
  simp [applyMock, registrationName, publish, baseURLOf]

theorem applyMock_of_error (L : Lib) (W : World) (fuel : Nat) (src e : String)
    (h : MockOpenAPISpec L fuel W.seed src = some (Except.error e)) :
    applyMock L W fuel true src = some src := by
  simp [applyMock, h]

theorem applyMock_of_ok (L : Lib) (W : World) (fuel : Nat) (src y : String)
    (h : MockOpenAPISpec L fuel W.seed src = some (Except.ok y)) :
    applyMock L W fuel true src = some y := by
  simp [applyMock, h]

/-- C8: a failure of the mock pipeline is recovered.  With mocking enabled and
`MockOpenAPISpec` returning an error on the source bytes, the call is the call
of the same resource without mocking: same result, same record, same file.  On
a successful call the file of the resource holds the source bytes when the mock
failed or was off, and the output of `MockOpenAPISpec` when it succeeded.  With
non-empty inline content the source bytes are the inline content, and the
result and the files do not depend on `specPath`. -/
theorem mock_failure_recovered (L : Lib) (W : World) (fuel : Nat) (srv : Server) (disk : Disk)
    (spec : OpenAPISpec) :
    (∀ src e, spec.Mock = true → sourceBytes W spec = some src →
      MockOpenAPISpec L fuel W.seed src = some (Except.error e) →
      RegisterSpec L W fuel srv disk spec =
        RegisterSpec L W fuel srv disk { spec with Mock := false }) ∧
    (∀ url srv' disk', RegisterSpec L W fuel srv disk spec = some (Except.ok url, srv', disk') →
      ∃ src, sourceBytes W spec = some src ∧
        (spec.Mock = true → ∀ e, MockOpenAPISpec L fuel W.seed src = some (Except.error e) →
          mapGet (W.join srv.specDirectory (spec.Namespace ++ "-" ++ spec.Name ++ ".json")) disk' =
            some src) ∧
        (spec.Mock = true → ∀ y, MockOpenAPISpec L fuel W.seed src = some (Except.ok y) →
          mapGet (W.join srv.specDirectory (spec.Namespace ++ "-" ++ spec.Name ++ ".json")) disk' =
            some y) ∧
        (spec.Mock = false →
          mapGet (W.join srv.specDirectory (spec.Namespace ++ "-" ++ spec.Name ++ ".json")) disk' =
            some src)) ∧
    (spec.SpecContent ≠ "" →
      sourceBytes W spec = some spec.SpecContent ∧
      ∀ otherPath,
        (RegisterSpec L W fuel srv disk { spec with SpecPath := otherPath }).map
            (fun r => (r.1, r.2.2)) =
          (RegisterSpec L W fuel srv disk spec).map (fun r => (r.1, r.2.2))) := by
  refine ⟨?_, ?_, ?_⟩
  · intro src e hmock hsrc herr
    have ham : applyMock L W fuel spec.Mock src = some src := by
      rw [hmock]
      exact applyMock_of_error L W fuel src e herr
    unfold RegisterSpec
    simp only
    unfold sourceBytes at hsrc
    by_cases hc : spec.SpecContent ≠ ""
    · rw [if_pos hc] at hsrc
      cases hsrc
      rw [if_pos hc, if_pos hc]
      exact storeAndPublish_mock_off L W fuel srv disk spec _ _ ham
    · rw [if_neg hc] at hsrc
      rw [if_neg hc, if_neg hc]
      by_cases hp : spec.SpecPath = ""
      · have hp' : ¬ spec.SpecPath ≠ "" := not_not.2 hp
        rw [if_neg hp', if_neg hp']
        simp [registrationName]
      · have hp' : spec.SpecPath ≠ "" := hp
        rw [if_neg hp] at hsrc
        rw [if_pos hp', if_pos hp']
        by_cases hu : (hasPrefix spec.SpecPath "http://" || hasPrefix spec.SpecPath "https://")
            = true
        · rw [if_pos hu] at hsrc
          rw [if_pos hu, if_pos hu]
          cases hg : W.httpGet spec.SpecPath with
          | error e' => rfl
          | ok r =>
            obtain ⟨statusCode, body⟩ := r
            rw [hg] at hsrc
            simp only
            by_cases hs : statusCode ≠ 200
            · rw [if_pos hs, if_pos hs]
            · rw [if_neg hs, if_neg hs]
              cases body with
              | error e' => rfl
              | ok content =>
                simp only [not_not.1 hs, if_true, Option.some.injEq] at hsrc
                subst hsrc
                exact storeAndPublish_mock_off L W fuel srv disk spec _ _ ham
        · rw [if_neg hu] at hsrc
          rw [if_neg hu, if_neg hu]
          cases hg : W.openFile spec.SpecPath with
          | error e' => rfl
          | ok r =>
            rw [hg] at hsrc
            cases r with
            | error e' => rfl
            | ok content =>
              simp only [Option.some.injEq] at hsrc
              subst hsrc
              exact storeAndPublish_mock_off L W fuel srv disk spec _ _ ham
  · intro url srv' disk' h
    rcases RegisterSpec_cases L W fuel srv disk spec _ srv' disk' h with
      ⟨_, hr, _⟩ | ⟨src, content', hsrc, ham, _, _, hd⟩
    · cases hr
    · have hfile : mapGet (W.join srv.specDirectory (spec.Namespace ++ "-" ++ spec.Name ++ ".json"))
          disk' = some content' := by
        rw [hd]
        exact mapGet_mapSet_self _ _ _
      refine ⟨src, hsrc, ?_, ?_, ?_⟩
      · intro hm e he
        rw [hm, applyMock_of_error L W fuel src e he] at ham
        rw [hfile, ← Option.some.inj ham]
      · intro hm y hy
        rw [hm, applyMock_of_ok L W fuel src y hy] at ham
        rw [hfile, ← Option.some.inj ham]
      · intro hm
        rw [hm] at ham
        simp only [applyMock, Bool.false_eq_true, if_false, Option.some.injEq] at ham
        rw [hfile, ← ham]
  · intro hc
    refine ⟨by simp [sourceBytes, hc], ?_⟩
    intro otherPath
    unfold RegisterSpec
    simp only [hc, ne_eq, not_false_eq_true, if_true]
    unfold storeAndPublish
    simp only [registrationName]
    cases applyMock L W fuel spec.Mock spec.SpecContent with
    | none => rfl
    | some content' =>
      simp only
      cases persist W disk (W.join srv.specDirectory (spec.Namespace ++ "-" ++ spec.Name ++ ".json"))
          content' "failed to write spec content to file: " with
      | mk r d =>
        cases r with
        | error e => rfl
        | ok u => simp [publish, baseURLOf, registrationName]

/-- Witness of C8: inline content that does not parse is persisted as it is,
although a path is given next to it; a fetched body that the mock pipeline
accepts is persisted as the mocked text. -/
theorem mock_failure_recovered_witness :
    inlineSpec.Mock = true ∧ inlineSpec.SpecContent ≠ "" ∧
    sourceBytes sampleWorld inlineSpec = some "not a document" ∧
    MockOpenAPISpec sampleLib 0 sampleWorld.seed "not a document" =
      some (Except.error "error parsing OpenAPI spec (neither valid JSON nor YAML)") ∧
    RegisterSpec sampleLib sampleWorld 0 sampleServer [] inlineSpec =
      RegisterSpec sampleLib sampleWorld 0 sampleServer [] { inlineSpec with Mock := false } ∧
    (∃ src, sourceBytes sampleWorld inlineSpec = some src ∧
      (inlineSpec.Mock = true → ∀ e,
        MockOpenAPISpec sampleLib 0 sampleWorld.seed src = some (Except.error e) →
        mapGet (sampleWorld.join sampleServer.specDirectory
          (inlineSpec.Namespace ++ "-" ++ inlineSpec.Name ++ ".json"))
          [("/tmp/redokube-specs/ns2-car.json", "not a document")] = some src) ∧
      (inlineSpec.Mock = true → ∀ y,
        MockOpenAPISpec sampleLib 0 sampleWorld.seed src = some (Except.ok y) →
        mapGet (sampleWorld.join sampleServer.specDirectory
          (inlineSpec.Namespace ++ "-" ++ inlineSpec.Name ++ ".json"))
          [("/tmp/redokube-specs/ns2-car.json", "not a document")] = some y) ∧
      (inlineSpec.Mock = false →
        mapGet (sampleWorld.join sampleServer.specDirectory
          (inlineSpec.Namespace ++ "-" ++ inlineSpec.Name ++ ".json"))
          [("/tmp/redokube-specs/ns2-car.json", "not a document")] = some src)) ∧
    MockOpenAPISpec sampleLib 0 sampleWorld.seed "swagger: pet" =
      some (Except.ok "openapi: 3.1.0") ∧
    (∃ srv', RegisterSpec sampleLib sampleWorld 0 sampleServer [] urlSpec =
      some (Except.ok "http://redokube.ns1.svc:8080/docs/ns1-pet", srv',
        [("/tmp/redokube-specs/ns1-pet.json", "openapi: 3.1.0")])) :=
  ⟨rfl, by decide, rfl, rfl,
    (mock_failure_recovered sampleLib sampleWorld 0 sampleServer [] inlineSpec).1
      "not a document" "error parsing OpenAPI spec (neither valid JSON nor YAML)" rfl rfl rfl,
    (mock_failure_recovered sampleLib sampleWorld 0 sampleServer [] inlineSpec).2.1
      "http://redokube.ns2.svc:8080/docs/ns2-car" _ _ rfl,
    rfl, ⟨_, rfl⟩⟩

/-! ## References -/

/-- Only what follows the last `/` counts. -/
theorem lastSegment_after_slash (p rest : List Char) :
    ∀ acc, lastSegment acc (p ++ '/' :: rest) = lastSegment [] rest := by
  induction p with
  | nil =>
    intro acc
    simp [lastSegment]
  | cons c p ih =>
    intro acc
    by_cases hc : c = '/'
    · simp [lastSegment, hc, ih]
    · simp [lastSegment, hc, ih]

theorem prefixOf_split (p : List Char) :
    ∀ l, prefixOf p l = true → l = p ++ l.drop p.length := by
  induction p with
  | nil =>
    intro l _
    simp
  | cons a p ih =>
    intro l h
    cases l with
    | nil => simp [prefixOf] at h
    | cons b l =>
      simp only [prefixOf, Bool.and_eq_true, beq_iff_eq] at h
      obtain ⟨hab, hp⟩ := h
      subst hab
      have := ih l hp
      simp only [List.length_cons, List.drop_succ_cons, List.cons_append, List.cons.injEq,
        true_and]
      exact this

/-- C16: rewriting a reference never changes the schema it names.  For every
reference string r, `resolveRef (convertRefPath r) = resolveRef r`: a leading
"#/definitions/" is replaced by "#/components/schemas/", both end in "/", and
`resolveRef` returns what follows the last "/"; any other string is returned
unchanged. -/
theorem resolveRef_convertRefPath (r : String) :
    resolveRef (convertRefPath r) = resolveRef r ∧
    (hasPrefix r "#/definitions/" = false → convertRefPath r = r) ∧
    (∀ rest : String, convertRefPath ("#/definitions/" ++ rest) =
      "#/components/schemas/" ++ rest) := by
  refine ⟨?_, ?_, ?_⟩
  · unfold convertRefPath
    by_cases h : hasPrefix r "#/definitions/" = true
    · rw [if_pos h]
      have hsplit := prefixOf_split _ _ h
      have h1 : resolveRef r =
          String.mk (lastSegment [] (r.toList.drop "#/definitions/".toList.length)) := by
        unfold resolveRef
        rw [hsplit]
        have : "#/definitions/".toList = "#/definitions".toList ++ ['/'] := by decide
        rw [this, List.append_assoc, List.singleton_append, lastSegment_after_slash]
        simp
      rw [h1]
      unfold resolveRef
      have h2 : ("#/components/schemas/" ++
            String.mk (List.drop "#/definitions/".length r.toList)).toList =
          "#/components/schemas".toList ++ '/' :: List.drop "#/definitions/".length r.toList := by
        simp [String.toList]
      rw [h2, lastSegment_after_slash]
      rfl
    · rw [if_neg h]
  · intro h
    unfold convertRefPath
    simp [h]
  · intro rest
    have hp : hasPrefix ("#/definitions/" ++ rest) "#/definitions/" = true := by
      unfold hasPrefix
      have : ∀ l : List Char, prefixOf "#/definitions/".toList ("#/definitions/".toList ++ l) = true := by
        intro l
        simp [String.toList, prefixOf]
      simpa [String.toList] using this rest.toList
    unfold convertRefPath
    rw [if_pos hp]
    congr 1

/-- Witness of C16: a Swagger 2.0 reference and a 3.x reference. -/
theorem resolveRef_convertRefPath_witness :
    hasPrefix "#/components/schemas/Pet" "#/definitions/" = false ∧
    convertRefPath "#/components/schemas/Pet" = "#/components/schemas/Pet" ∧
    resolveRef (convertRefPath "#/definitions/Pet") = resolveRef "#/definitions/Pet" ∧
    resolveRef "#/definitions/Pet" = "Pet" :=
  ⟨by decide, (resolveRef_convertRefPath "#/components/schemas/Pet").2.1 (by decide),
    (resolveRef_convertRefPath "#/definitions/Pet").1, by decide⟩

/-! ## Example synthesizer -/

/-- The model of `gofakeit.Number(1, 1000)`: one draw, a value in `[1, 1000]`. -/
theorem Number_1_1000 (L : Lib) (s : Rng) :
    Number L 1 1000 s = (((L.raw s % 1000 : Nat) : Int) + 1, L.next s) ∧
    1 ≤ (Number L 1 1000 s).1 ∧ (Number L 1 1000 s).1 ≤ 1000 := by
  have h : Number L 1 1000 s = (((L.raw s % 1000 : Nat) : Int) + 1, L.next s) := by
    simp [Number]
  refine ⟨h, ?_, ?_⟩
  · rw [h]
    simp only
    omega
  · rw [h]
    simp only
    omega

/-- What the loop body stores for an array property with integer items. -/
theorem fakeProperty_int_array (L : Lib) (recur : Obj → Obj → Rng → Option (Obj × Rng))
    (defs : Obj) (key : String) (field items : Obj) (s : Rng)
    (ht : mapGet "type" field = some (Value.str "array"))
    (hi : mapGet "items" field = some (Value.obj items))
    (hit : mapGet "type" items = some (Value.str "integer") ∨
      mapGet "type" items = some (Value.str "number")) :
    fakeProperty L recur defs key (Value.obj field) s =
      some (some (Value.arr [Value.num (Number L 1 1000 s).1,
                             Value.num (Number L 1 1000 (Number L 1 1000 s).2).1]),
            (Number L 1 1000 (Number L 1 1000 s).2).2) := by
  rcases hit with hit | hit <;>
    simp [fakeProperty, ht, hi, hit, asStr, asObj]

/-- The map built by a loop starting from the empty map has only keys of the
map it ranges over. -/
theorem rangeLoop_keys_subset (body : String → Value → Rng → Option (Option Value × Rng))
    (m : Obj) (s : Rng) (out : Obj) (s' : Rng)
    (h : rangeLoop body m [] s = some (out, s')) (k : String) (hk : k ∈ keys out) :
    k ∈ keys m := by
  by_contra hc
  have := rangeLoop_frame body k m [] s out s' h hc
  rw [(mem_keys_iff k out)] at hk
  obtain ⟨v, hv⟩ := hk
  rw [hv] at this
  simp [mapGet] at this

/-- The loop of `generateFakeObject` behind a result, for a schema with a
`properties` mapping. -/
theorem generateFakeObject_props (L : Lib) (fuel : Nat) (d defs props : Obj) (s : Rng)
    (result : Obj) (s' : Rng)
    (hp : mapGet "properties" d = some (Value.obj props))
    (hr : generateFakeObject L fuel d defs s = some (result, s')) :
    ∃ n, fuel = n + 1 ∧
      rangeLoop (fakeProperty L (generateFakeObject L n) defs) props [] s = some (result, s') := by
  cases fuel with
  | zero => simp [generateFakeObject] at hr
  | succ n =>
    refine ⟨n, rfl, ?_⟩
    rw [generateFakeObject] at hr
    simpa [hp, asObj] using hr

/-- C11: for a schema with a property whose `type` is "array" and whose
`items.type` is "integer" or "number", and every state of the random source,
the loop body stores a sequence of exactly two integers, each in `[1, 1000]`,
and so does every result that `generateFakeObject` returns for the schema. -/
theorem int_array_two_in_range (L : Lib) (defs : Obj) (key : String) (field items : Obj)
    (ht : mapGet "type" field = some (Value.str "array"))
    (hi : mapGet "items" field = some (Value.obj items))
    (hit : mapGet "type" items = some (Value.str "integer") ∨
      mapGet "type" items = some (Value.str "number")) :
    (∀ (recur : Obj → Obj → Rng → Option (Obj × Rng)) (s : Rng),
      ∃ a b s2, fakeProperty L recur defs key (Value.obj field) s =
          some (some (Value.arr [Value.num a, Value.num b]), s2) ∧
        1 ≤ a ∧ a ≤ 1000 ∧ 1 ≤ b ∧ b ≤ 1000) ∧
    (∀ (fuel : Nat) (d props : Obj) (s : Rng) (result : Obj) (s' : Rng),
      mapGet "properties" d = some (Value.obj props) → Distinct props →
      mapGet key props = some (Value.obj field) →
      generateFakeObject L fuel d defs s = some (result, s') →
      ∃ a b, mapGet key result = some (Value.arr [Value.num a, Value.num b]) ∧
        1 ≤ a ∧ a ≤ 1000 ∧ 1 ≤ b ∧ b ≤ 1000) := by
  have hbody : ∀ (recur : Obj → Obj → Rng → Option (Obj × Rng)) (s : Rng),
      ∃ a b s2, fakeProperty L recur defs key (Value.obj field) s =
          some (some (Value.arr [Value.num a, Value.num b]), s2) ∧
        1 ≤ a ∧ a ≤ 1000 ∧ 1 ≤ b ∧ b ≤ 1000 := by
    intro recur s
    exact ⟨_, _, _, fakeProperty_int_array L recur defs key field items s ht hi hit,
      (Number_1_1000 L s).2.1, (Number_1_1000 L s).2.2,
      (Number_1_1000 L _).2.1, (Number_1_1000 L _).2.2⟩
  refine ⟨hbody, ?_⟩
  intro fuel d props s result s' hp hd hk hr
  obtain ⟨n, _, hloop⟩ := generateFakeObject_props L fuel d defs props s result s' hp hr
  obtain ⟨s1, r, s2, hb, hres⟩ :=
    rangeLoop_hit _ key (Value.obj field) props [] s result s' hloop hd hk
  obtain ⟨a, b, t2, hbd, hrange⟩ := hbody (generateFakeObject L n) s1
  rw [hbd] at hb
  simp only [Option.some.injEq, Prod.mk.injEq] at hb
  rcases hres with ⟨x, hx, hget⟩ | ⟨hn, _⟩
  · rw [← hb.1] at hx
    rw [← Option.some.inj hx] at hget
    exact ⟨a, b, hget, hrange⟩
  · rw [← hb.1] at hn
    cases hn

/-- Witness of C11: the property `scores` of the sample schema, with the counter
of the sample library as random source. -/
theorem int_array_two_in_range_witness :
    mapGet "type" scoresField = some (Value.str "array") ∧
    mapGet "items" scoresField = some (Value.obj [("type", Value.str "integer")]) ∧
    generateFakeObject sampleLib 1 reportDef [] 0 =
      some ([("scores", Value.arr [Value.num 1, Value.num 2])], 2) ∧
    (∃ a b, mapGet "scores" [("scores", Value.arr [Value.num 1, Value.num 2])] =
        some (Value.arr [Value.num a, Value.num b]) ∧
      1 ≤ a ∧ a ≤ 1000 ∧ 1 ≤ b ∧ b ≤ 1000) :=
  ⟨rfl, rfl, rfl,
    (int_array_two_in_range sampleLib [] "scores" scoresField [("type", Value.str "integer")]
      rfl rfl (Or.inl rfl)).2 1 reportDef _ 0 _ 2 rfl (by decide) rfl rfl⟩

theorem asStr_eq_some (o : Option Value) (t : String) (h : asStr o = some t) :
    o = some (Value.str t) := by
  cases o with
  | none => simp [asStr] at h
  | some v =>
    cases v with
    | str x =>
      simp only [asStr, Option.some.injEq] at h
      rw [h]
    | _ => simp [asStr] at h

/-- A reference that names no mapping of the registry stores nothing, draws
nothing and cannot fail. -/
theorem followRef_unresolved (recur : Obj → Obj → Rng → Option (Obj × Rng)) (twice : Bool)
    (holder defs : Obj) (s : Rng)
    (href : ∀ ref sub, mapGet "$ref" holder = some (Value.str ref) →
      mapGet (resolveRef ref) defs ≠ some (Value.obj sub)) :
    followRef recur twice holder defs s = some (none, s) := by
  unfold followRef
  cases hs : asStr (mapGet "$ref" holder) with
  | none => rfl
  | some ref =>
    have hg := asStr_eq_some _ _ hs
    simp only
    cases hd : mapGet (resolveRef ref) defs with
    | none => rfl
    | some x =>
      cases x with
      | obj sub => exact absurd hd (href ref sub hg)
      | _ => rfl

/-- The loop body on a property of no recognized type and without a reference
that resolves: nothing is stored, nothing is drawn, nothing can fail. -/
theorem fakeProperty_unrecognized (L : Lib) (recur : Obj → Obj → Rng → Option (Obj × Rng))
    (defs : Obj) (key : String) (field : Obj) (s : Rng)
    (htype : ∀ t, mapGet "type" field = some (Value.str t) →
      t ≠ "string" ∧ t ≠ "integer" ∧ t ≠ "number" ∧ t ≠ "boolean" ∧ t ≠ "array" ∧ t ≠ "object")
    (href : ∀ ref sub, mapGet "$ref" field = some (Value.str ref) →
      mapGet (resolveRef ref) defs ≠ some (Value.obj sub)) :
    fakeProperty L recur defs key (Value.obj field) s = some (none, s) := by
  have hft : ∀ t, (asStr (mapGet "type" field)).getD "" = t →
      t ≠ "string" ∧ t ≠ "integer" ∧ t ≠ "number" ∧ t ≠ "boolean" ∧ t ≠ "array" ∧
        t ≠ "object" := by
    intro t ht
    cases hs : asStr (mapGet "type" field) with
    | none =>
      rw [hs] at ht
      simp only [Option.getD_none] at ht
      subst ht
      decide
    | some t' =>
      rw [hs] at ht
      simp only [Option.getD_some] at ht
      subst ht
      exact htype t' (asStr_eq_some _ _ hs)
  obtain ⟨h1, h2, h3, h4, h5, h6⟩ := hft _ rfl
  simp only [fakeProperty, h1, h2, h3, h4, h5, h6, if_false, or_self]
  exact followRef_unresolved recur false field defs s href

/-- C14: for a schema with a `properties` mapping and any registry,
`generateFakeObject` omits the key of every property whose `type` is none of
string, integer, number, boolean, array, object and which has no `$ref` whose
last segment names a mapping of the registry: the loop body stores nothing for
it and cannot fail on it; the same holds for a property that is not a mapping.
Every key of a result is a key of the schema's `properties`. -/
theorem unrecognized_property_omitted (L : Lib) (defs : Obj) :
    (∀ (key : String) (field : Obj),
      (∀ t, mapGet "type" field = some (Value.str t) →
        t ≠ "string" ∧ t ≠ "integer" ∧ t ≠ "number" ∧ t ≠ "boolean" ∧ t ≠ "array" ∧
          t ≠ "object") →
      (∀ ref sub, mapGet "$ref" field = some (Value.str ref) →
        mapGet (resolveRef ref) defs ≠ some (Value.obj sub)) →
      ∀ (recur : Obj → Obj → Rng → Option (Obj × Rng)) (s : Rng),
        fakeProperty L recur defs key (Value.obj field) s = some (none, s)) ∧
    (∀ (fuel : Nat) (d props : Obj) (s : Rng) (result : Obj) (s' : Rng),
      mapGet "properties" d = some (Value.obj props) →
      generateFakeObject L fuel d defs s = some (result, s') →
      (∀ k, k ∈ keys result → k ∈ keys props) ∧
      (Distinct props → ∀ (key : String) (field : Obj),
        mapGet key props = some (Value.obj field) →
        (∀ t, mapGet "type" field = some (Value.str t) →
          t ≠ "string" ∧ t ≠ "integer" ∧ t ≠ "number" ∧ t ≠ "boolean" ∧ t ≠ "array" ∧
            t ≠ "object") →
        (∀ ref sub, mapGet "$ref" field = some (Value.str ref) →
          mapGet (resolveRef ref) defs ≠ some (Value.obj sub)) →
        key ∉ keys result) ∧
      (Distinct props → ∀ (key : String) (val : Value),
        mapGet key props = some val → (∀ field, val ≠ Value.obj field) →
        key ∉ keys result)) := by
  refine ⟨fun key field htype href recur s =>
    fakeProperty_unrecognized L recur defs key field s htype href, ?_⟩
  intro fuel d props s result s' hp hr
  obtain ⟨n, _, hloop⟩ := generateFakeObject_props L fuel d defs props s result s' hp hr
  refine ⟨fun k hk => rangeLoop_keys_subset _ props s result s' hloop k hk, ?_, ?_⟩
  · intro hd key field hk htype href
    obtain ⟨s1, r, s2, hb, hres⟩ :=
      rangeLoop_hit _ key (Value.obj field) props [] s result s' hloop hd hk
    rw [fakeProperty_unrecognized L _ defs key field s1 htype href] at hb
    simp only [Option.some.injEq, Prod.mk.injEq] at hb
    apply (mapGet_eq_none_iff key result).1
    rcases hres with ⟨x, hx, _⟩ | ⟨_, hget⟩
    · rw [← hb.1] at hx
      cases hx
    · rw [hget]
      rfl
  · intro hd key val hk hval
    obtain ⟨s1, r, s2, hb, hres⟩ := rangeLoop_hit _ key val props [] s result s' hloop hd hk
    have hnone : fakeProperty L (generateFakeObject L n) defs key val s1 = some (none, s1) := by
      cases val with
      | obj field => exact absurd rfl (hval field)
      | _ => rfl
    rw [hnone] at hb
    simp only [Option.some.injEq, Prod.mk.injEq] at hb
    apply (mapGet_eq_none_iff key result).1
    rcases hres with ⟨x, hx, _⟩ | ⟨_, hget⟩
    · rw [← hb.1] at hx
      cases hx
    · rw [hget]
      rfl

/-- Witness of C14: in the sample schema `blob` has the type "binary" and
`owner` a reference that the empty registry does not hold; neither is a key of
the result, whose only key is `scores`. -/
theorem unrecognized_property_omitted_witness :
    generateFakeObject sampleLib 1 reportDef [] 0 =
      some ([("scores", Value.arr [Value.num 1, Value.num 2])], 2) ∧
    fakeProperty sampleLib (generateFakeObject sampleLib 0) [] "blob"
      (Value.obj [("type", Value.str "binary")]) 7 = some (none, 7) ∧
    "blob" ∉ keys [("scores", Value.arr [Value.num 1, Value.num 2])] ∧
    "owner" ∉ keys [("scores", Value.arr [Value.num 1, Value.num 2])] ∧
    "note" ∉ keys [("scores", Value.arr [Value.num 1, Value.num 2])] :=
  ⟨rfl,
    (unrecognized_property_omitted sampleLib []).1 "blob" [("type", Value.str "binary")]
      (by intro t ht
          simp only [mapGet, if_true, Option.some.injEq, Value.str.injEq] at ht
          subst ht
          decide)
      (by intro ref sub h
          simp [mapGet] at h) _ 7,
    ((unrecognized_property_omitted sampleLib []).2 1 reportDef _ 0 _ 2 rfl rfl).2.1 (by decide)
      "blob" [("type", Value.str "binary")] rfl
      (by intro t ht
          simp only [mapGet, if_true, Option.some.injEq, Value.str.injEq] at ht
          subst ht
          decide)
      (by intro ref sub h
          simp [mapGet] at h),
    ((unrecognized_property_omitted sampleLib []).2 1 reportDef _ 0 _ 2 rfl rfl).2.1 (by decide)
      "owner" [("$ref", Value.str "#/definitions/Missing")] rfl
      (by intro t ht
          simp [mapGet] at ht)
      (by intro ref sub h
          simp [mapGet]),
    ((unrecognized_property_omitted sampleLib []).2 1 reportDef _ 0 _ 2 rfl rfl).2.2 (by decide)
      "note" (Value.str "free text") rfl (by intro field h; cases h)⟩

/-! ## Responses -/

/-- Where an entry of the map built by a loop comes from: it was there before,
or the body stored it for an entry with that key. -/
theorem rangeLoop_origin (body : String → Value → Rng → Option (Option Value × Rng))
    (k : String) (x : Value) (m : Obj) :
    ∀ (acc : Obj) (s : Rng) (out : Obj) (s' : Rng),
      rangeLoop body m acc s = some (out, s') → mapGet k out = some x →
      mapGet k acc = some x ∨ ∃ v s1 s2, (k, v) ∈ m ∧ body k v s1 = some (some x, s2) := by
  induction m with
  | nil =>
    intro acc s out s' h hx
    simp only [rangeLoop, Option.some.injEq, Prod.mk.injEq] at h
    rw [← h.1] at hx
    exact Or.inl hx
  | cons e rest ih =>
    obtain ⟨k0, v0⟩ := e
    intro acc s out s' h hx
    simp only [rangeLoop] at h
    cases hb : body k0 v0 s with
    | none => rw [hb] at h; cases h
    | some r =>
      obtain ⟨r1, s1⟩ := r
      rw [hb] at h
      cases r1 with
      | none =>
        rcases ih acc s1 out s' h hx with hacc | ⟨v, t1, t2, hmem, hbody⟩
        · exact Or.inl hacc
        · exact Or.inr ⟨v, t1, t2, List.mem_cons_of_mem _ hmem, hbody⟩
      | some y =>
        rcases ih (mapSet k0 y acc) s1 out s' h hx with hacc | ⟨v, t1, t2, hmem, hbody⟩
        · by_cases hk : k = k0
          · subst hk
            rw [mapGet_mapSet_self] at hacc
            cases hacc
            exact Or.inr ⟨v0, s, s1, List.mem_cons_self _ _, hb⟩
          · rw [mapGet_mapSet_ne _ _ hk] at hacc
            exact Or.inl hacc
        · exact Or.inr ⟨v, t1, t2, List.mem_cons_of_mem _ hmem, hbody⟩

theorem getPath_cons_some (k : String) (ks : List String) (v z : Value)
    (h : getPath (k :: ks) v = some z) :
    ∃ m w, v = Value.obj m ∧ mapGet k m = some w ∧ getPath ks w = some z := by
  cases v with
  | obj m =>
    simp only [getPath] at h
    cases hg : mapGet k m with
    | none => rw [hg] at h; cases h
    | some w =>
      rw [hg] at h
      exact ⟨m, w, rfl, hg, h⟩
  | _ => simp [getPath] at h

/-- A response stored by the loop over the responses is `description` alone, or
`description` with a generated `content`. -/
theorem mockResponse_shape (L : Lib) (fuel : Nat) (schemas : Obj) (code : String) (v : Value)
    (s : Rng) (x : Value) (s2 : Rng)
    (h : mockResponse L fuel schemas code v s = some (some x, s2)) :
    ∃ response, v = Value.obj response ∧
      (x = Value.obj [("description", idx response "description")] ∨
       (∃ ref example_, x = Value.obj [("description", idx response "description"),
          ("content", successContent ref example_)]) ∨
       (∃ message errorCode, x = Value.obj [("description", idx response "description"),
          ("content", errorContent message errorCode)])) := by
  cases v with
  | obj response =>
    refine ⟨response, rfl, ?_⟩
    simp only [mockResponse] at h
    split_ifs at h
    · cases hs : asObj (mapGet "schema" response) with
      | none =>
        rw [hs] at h
        simp only [Option.some.injEq, Prod.mk.injEq] at h
        exact Or.inl (by rw [← h.1]; rfl)
      | some schema =>
        rw [hs] at h
        simp only at h
        cases hf : asStr (mapGet "$ref" schema) with
        | none =>
          rw [hf] at h
          simp only [Option.some.injEq, Prod.mk.injEq] at h
          exact Or.inl (by rw [← h.1]; rfl)
        | some ref =>
          rw [hf] at h
          simp only at h
          cases hd : mapGet (resolveRef ref) schemas with
          | none =>
            rw [hd] at h
            simp only [Option.some.injEq, Prod.mk.injEq] at h
            exact Or.inl (by rw [← h.1]; rfl)
          | some d =>
            rw [hd] at h
            cases d with
            | obj defMap =>
              simp only at h
              cases hg : generateFakeObject L fuel defMap schemas s with
              | none => rw [hg] at h; cases h
              | some o =>
                obtain ⟨example_, s1⟩ := o
                rw [hg] at h
                simp only [Option.some.injEq, Prod.mk.injEq] at h
                exact Or.inr (Or.inl ⟨ref, example_, by rw [← h.1]; simp [mapSet]⟩)
            | _ => simp at h
    · simp only [Option.some.injEq, Prod.mk.injEq] at h
      refine Or.inr (Or.inr ⟨(L.gen (Gen.sentence 5) s).1,
        (L.gen (Gen.regex "ERR_[0-9]\x7b3\x7d") (L.gen (Gen.sentence 5) s).2).1, ?_⟩)
      rw [← h.1]
      simp [mapSet]
  | _ => simp [mockResponse] at h

/-- A "200"/"201" response without a `schema.$ref` that the registry holds is
stored as `description` alone, without a draw. -/
theorem mockResponse_unresolved (L : Lib) (fuel : Nat) (schemas : Obj) (code : String)
    (response : Obj) (s : Rng)
    (hc : code = "200" ∨ code = "201")
    (hno : ∀ schema r, mapGet "schema" response = some (Value.obj schema) →
      mapGet "$ref" schema = some (Value.str r) → mapGet (resolveRef r) schemas = none) :
    mockResponse L fuel schemas code (Value.obj response) s =
      some (some (Value.obj [("description", idx response "description")]), s) := by
  simp only [mockResponse, hc, if_true]
  cases hs : mapGet "schema" response with
  | none => simp [asObj, mapSet]
  | some sv =>
    cases sv with
    | obj schema =>
      simp only [asObj]
      cases hf : mapGet "$ref" schema with
      | none => simp [asStr, mapSet]
      | some rv =>
        cases rv with
        | str r =>
          simp only [asStr]
          rw [hno schema r hs hf]
          simp [mapSet]
        | _ => simp [asStr, mapSet]
    | _ => simp [asObj, mapSet]

/-- Every response found in the output was stored by the loop over the
responses of some method. -/
theorem out_response_origin (L : Lib) (fuel : Nat) (swagger : Obj) (s0 : Rng) (out : Obj)
    (s' : Rng) (p m code : String) (z : Value)
    (hr : mockTree L fuel swagger s0 = some (out, s'))
    (hz : getPath ["paths", p, m, "responses", code] (Value.obj out) = some z) :
    ∃ respVal s1 s2,
      mockResponse L fuel (schemasOf swagger (normalize swagger)) code respVal s1 =
        some (some z, s2) := by
  obtain ⟨outPaths, hloop, hget⟩ := mockTree_get_paths L fuel swagger s0 out s' hr
  obtain ⟨m0, w0, hm0, hg0, hz0⟩ := getPath_cons_some _ _ _ _ hz
  cases hm0
  rw [hget] at hg0
  cases hg0
  obtain ⟨m1, w1, hm1, hg1, hz1⟩ := getPath_cons_some _ _ _ _ hz0
  cases hm1
  rcases rangeLoop_origin _ p w1 _ [] s0 _ s' hloop hg1 with hacc | ⟨v, t1, t2, _, hb⟩
  · simp [mapGet] at hacc
  cases v with
  | obj item =>
    obtain ⟨newPathItem, hl2, hw1⟩ := mockPathItem_obj L fuel _ p item t1 _ t2 hb
    cases hw1
    obtain ⟨m2, w2, hm2, hg2, hz2⟩ := getPath_cons_some _ _ _ _ hz1
    cases hm2
    rcases rangeLoop_origin _ m w2 _ [] t1 _ t2 hl2 hg2 with hacc | ⟨v', u1, u2, _, hb'⟩
    · simp [mapGet] at hacc
    cases v' with
    | obj method =>
      obtain ⟨newMethod, responses, u1', _, hl3, hw2⟩ :=
        mockMethod_obj L fuel _ m method u1 _ u2 hb'
      cases hw2
      obtain ⟨m3, w3, hm3, hg3, hz3⟩ := getPath_cons_some _ _ _ _ hz2
      cases hm3
      rw [mapGet_mapSet_self] at hg3
      cases hg3
      obtain ⟨m4, w4, hm4, hg4, hz4⟩ := getPath_cons_some _ _ _ _ hz3
      cases hm4
      simp only [getPath, Option.some.injEq] at hz4
      subst hz4
      rcases rangeLoop_origin _ code w4 _ [] u1' _ u2 hl3 hg4 with hacc | ⟨rv, q1, q2, _, hb''⟩
      · simp [mapGet] at hacc
      · exact ⟨rv, q1, q2, hb''⟩
    | _ => simp [mockMethod] at hb'
  | _ => simp [mockPathItem] at hb

/-- C15: every response in the output of `MockOpenAPISpec` (every entry of the
`responses` of a method), for a Swagger 2.0 and for a 3.x document alike, is
`description` alone or `description` with a
generated `content` (the success example or the error example), so it has no
key other than `description` and `content`, and nothing else of the input
response is carried over.  A "200"/"201" response without a `schema.$ref` that
the registry holds comes out with `description` as its only key. -/
theorem response_keys (L : Lib) (fuel : Nat) (swagger : Obj) (s0 : Rng) (out : Obj) (s' : Rng)
    (hr : mockTree L fuel swagger s0 = some (out, s')) :
    (∀ (p m code : String) (z : Value),
      getPath ["paths", p, m, "responses", code] (Value.obj out) = some z →
      (∃ d, z = Value.obj [("description", d)] ∨
        (∃ ref example_, z = Value.obj [("description", d),
          ("content", successContent ref example_)]) ∨
        (∃ message errorCode, z = Value.obj [("description", d),
          ("content", errorContent message errorCode)])) ∧
      (∃ o, z = Value.obj o ∧ ∀ k, k ∈ keys o → k = "description" ∨ k = "content")) ∧
    (∀ (paths : Obj) (p : String) (item : Obj) (m : String) (method resp : Obj) (code : String)
      (response : Obj),
      mapGet "paths" swagger = some (Value.obj paths) → Distinct paths →
      mapGet p paths = some (Value.obj item) → Distinct item →
      mapGet m item = some (Value.obj method) →
      mapGet "responses" method = some (Value.obj resp) → Distinct resp →
      (code = "200" ∨ code = "201") →
      mapGet code resp = some (Value.obj response) →
      (∀ schema r, mapGet "schema" response = some (Value.obj schema) →
        mapGet "$ref" schema = some (Value.str r) →
        mapGet (resolveRef r) (schemasOf swagger (normalize swagger)) = none) →
      getPath ["paths", p, m, "responses", code] (Value.obj out) =
        some (Value.obj [("description", idx response "description")])) := by
  constructor
  · intro p m code z hz
    obtain ⟨respVal, s1, s2, hb⟩ := out_response_origin L fuel swagger s0 out s' p m code z hr hz
    obtain ⟨response, _, hshape⟩ := mockResponse_shape L fuel _ code respVal s1 z s2 hb
    refine ⟨⟨idx response "description", hshape⟩, ?_⟩
    rcases hshape with h | ⟨_, _, h⟩ | ⟨_, _, h⟩
    · exact ⟨_, h, by intro k hk; simp [keys] at hk; exact Or.inl hk⟩
    · exact ⟨_, h, by intro k hk; simpa [keys] using hk⟩
    · exact ⟨_, h, by intro k hk; simpa [keys] using hk⟩
  · intro paths p item m method resp code response hp hdp hi hdi hm hresp hdr hc hcode hno
    obtain ⟨outPaths, outItem, newMethod, responses, t0, t1, t2, hg1, hg2, hg3, _, hl⟩ :=
      method_out L fuel swagger s0 out s' paths p item m method hr hp hdp hi hdi hm
    simp only [hresp, asObj, Option.getD_some] at hl
    obtain ⟨u1, res, u2, hb, hres⟩ := rangeLoop_hit _ code (Value.obj response) resp [] t1
      responses t2 hl hdr hcode
    rw [mockResponse_unresolved L fuel _ code response u1 hc hno] at hb
    simp only [Option.some.injEq, Prod.mk.injEq] at hb
    have hget : mapGet code responses =
        some (Value.obj [("description", idx response "description")]) := by
      rcases hres with ⟨x, hx, hres⟩ | ⟨hn, _⟩
      · rw [← hb.1] at hx
        rw [← Option.some.inj hx] at hres
        exact hres
      · rw [← hb.1] at hn
        cases hn
    simp [getPath, hg1, hg2, hg3, mapGet_mapSet_self, hget]

/-- Witness of C15 on the 3.x sample document: the "200" response had a
`content` of its own and comes out as `description` alone; the "404" response
comes out as `description` with the error example. -/
theorem response_keys_witness :
    mockTree sampleLib 1 storeDoc 0 = some (storeOut, 2) ∧
    (getPath ["paths", "/items", "get", "responses", "200", "content"]
      (Value.obj storeDoc)).isSome = true ∧
    getPath ["paths", "/items", "get", "responses", "200"] (Value.obj storeOut) =
      some (Value.obj [("description", Value.str "ok")]) ∧
    (∃ o, Value.obj [("description", Value.str "missing"),
        ("content", errorContent "lorem ipsum dolor sit amet" "ERR_042")] = Value.obj o ∧
      ∀ k, k ∈ keys o → k = "description" ∨ k = "content") :=
  ⟨rfl, rfl,
    (response_keys sampleLib 1 storeDoc 0 storeOut 2 rfl).2
      [("/items", Value.obj [("summary", Value.str "Items"), ("get", Value.obj storeGet)]),
       ("x-internal", Value.bool true)]
      "/items" [("summary", Value.str "Items"), ("get", Value.obj storeGet)] "get" storeGet
      [("200", Value.obj
          [("description", Value.str "ok"),
           ("content", Value.obj [("application/json", Value.obj
              [("schema", Value.obj [("$ref", Value.str "#/components/schemas/Item")])])])]),
       ("404", Value.obj [("description", Value.str "missing")])]
      "200"
      [("description", Value.str "ok"),
       ("content", Value.obj [("application/json", Value.obj
          [("schema", Value.obj [("$ref", Value.str "#/components/schemas/Item")])])])]
      rfl (by decide) rfl (by decide) rfl rfl (by decide) (Or.inl rfl) rfl
      (by intro schema r h; simp [mapGet] at h),
    ((response_keys sampleLib 1 storeDoc 0 storeOut 2 rfl).1 "/items" "get" "404" _ rfl).2⟩

/-- The only way the loop over the responses stores nothing for a response that
is a mapping: a "200"/"201" response whose `schema.$ref` names an entry of the
registry that is not a mapping (the `continue` of line 132). -/
theorem mockResponse_dropped (L : Lib) (fuel : Nat) (schemas : Obj) (code : String)
    (response : Obj) (s s2 : Rng)
    (h : mockResponse L fuel schemas code (Value.obj response) s = some (none, s2)) :
    (code = "200" ∨ code = "201") ∧
    ∃ schema r x, mapGet "schema" response = some (Value.obj schema) ∧
      mapGet "$ref" schema = some (Value.str r) ∧
      mapGet (resolveRef r) schemas = some x ∧ ∀ d, x ≠ Value.obj d := by
  simp only [mockResponse] at h
  split_ifs at h with hc
  · refine ⟨hc, ?_⟩
    cases hs : mapGet "schema" response with
    | none => simp [hs, asObj] at h
    | some sv =>
      cases sv with
      | obj schema =>
        simp only [hs, asObj] at h
        cases hf : mapGet "$ref" schema with
        | none => simp [hf, asStr] at h
        | some rv =>
          cases rv with
          | str r =>
            simp only [hf, asStr] at h
            cases hd : mapGet (resolveRef r) schemas with
            | none => simp [hd] at h
            | some x =>
              refine ⟨schema, r, x, rfl, hf, hd, ?_⟩
              intro d hx
              subst hx
              simp only [hd] at h
              cases hg : generateFakeObject L fuel d schemas s with
              | none => simp [hg] at h
              | some o => simp [hg] at h
          | _ => simp [hf, asStr] at h
      | _ => simp [hs, asObj] at h
  · simp at h

/-- Apart from that case the augmenter keeps every response: a response that is
a mapping appears in the output under its status code with the `description`
of the input. -/
theorem response_kept_unless_bad_definition (L : Lib) (fuel : Nat) (swagger : Obj) (s0 : Rng)
    (out : Obj) (s' : Rng) (paths : Obj) (p : String) (item : Obj) (m : String)
    (method resp : Obj) (code : String) (response : Obj)
    (hr : mockTree L fuel swagger s0 = some (out, s'))
    (hp : mapGet "paths" swagger = some (Value.obj paths)) (hdp : Distinct paths)
    (hi : mapGet p paths = some (Value.obj item)) (hdi : Distinct item)
    (hm : mapGet m item = some (Value.obj method))
    (hresp : mapGet "responses" method = some (Value.obj resp)) (hdr : Distinct resp)
    (hcode : mapGet code resp = some (Value.obj response))
    (hok : ¬ ((code = "200" ∨ code = "201") ∧
      ∃ schema r x, mapGet "schema" response = some (Value.obj schema) ∧
        mapGet "$ref" schema = some (Value.str r) ∧
        mapGet (resolveRef r) (schemasOf swagger (normalize swagger)) = some x ∧
        ∀ d, x ≠ Value.obj d)) :
    ∃ o, getPath ["paths", p, m, "responses", code] (Value.obj out) = some (Value.obj o) ∧
      mapGet "description" o = some (idx response "description") := by
  obtain ⟨outPaths, outItem, newMethod, responses, t0, t1, t2, hg1, hg2, hg3, _, hl⟩ :=
    method_out L fuel swagger s0 out s' paths p item m method hr hp hdp hi hdi hm
  simp only [hresp, asObj, Option.getD_some] at hl
  obtain ⟨u1, res, u2, hb, hres⟩ := rangeLoop_hit _ code (Value.obj response) resp [] t1
    responses t2 hl hdr hcode
  cases res with
  | none => exact absurd (mockResponse_dropped L fuel _ code response u1 u2 hb) hok
  | some x =>
    obtain ⟨response', hresp', hshape⟩ := mockResponse_shape L fuel _ code _ u1 x u2 hb
    cases hresp'
    have hget : mapGet code responses = some x := by
      rcases hres with ⟨y, hy, hres⟩ | ⟨hn, _⟩
      · cases hy
        exact hres
      · cases hn
    have hpath : getPath ["paths", p, m, "responses", code] (Value.obj out) = some x := by
      simp [getPath, hg1, hg2, hg3, mapGet_mapSet_self, hget]
    rcases hshape with h | ⟨_, _, h⟩ | ⟨_, _, h⟩
    · exact ⟨_, by rw [hpath, h], by simp [mapGet]⟩
    · exact ⟨_, by rw [hpath, h], by simp [mapGet]⟩
    · exact ⟨_, by rw [hpath, h], by simp [mapGet]⟩

/-- C12 fails on the code: in `brokenRefDoc` the "200" response of `GET /pets` is
a mapping with a `description`, and the output method has no "200" response at
all, while the "404" response next to it is kept with its `description`. -/
theorem responses_kept_failing_input :
    getPath ["paths", "/pets", "get", "responses", "200"] (Value.obj brokenRefDoc) =
      some (Value.obj [("description", Value.str "the pets"),
                       ("schema", Value.obj [("$ref", Value.str "#/definitions/Pet")])]) ∧
    mockTree sampleLib 1 brokenRefDoc 0 = some (brokenRefOut, 2) ∧
    getPath ["paths", "/pets", "get", "responses", "200"] (Value.obj brokenRefOut) = none ∧
    getPath ["paths", "/pets", "get", "responses", "404", "description"]
      (Value.obj brokenRefOut) = some (Value.str "missing") :=
  ⟨rfl, rfl, rfl, rfl⟩

/-! ## Registration names -/

/-- Two lists that agree around the first occurrence of a separator agree on
both sides of it. -/
theorem split_at_first (c : Char) (l1 : List Char) :
    ∀ (l2 r1 r2 : List Char), c ∉ l1 → c ∉ l2 → l1 ++ c :: r1 = l2 ++ c :: r2 →
      l1 = l2 ∧ r1 = r2 := by
  induction l1 with
  | nil =>
    intro l2 r1 r2 _ h2 h
    cases l2 with
    | nil => simpa using h
    | cons b l2 =>
      simp only [List.nil_append, List.cons_append, List.cons.injEq] at h
      exact absurd (by rw [h.1]; exact List.mem_cons_self _ _) h2
  | cons a l1 ih =>
    intro l2 r1 r2 h1 h2 h
    cases l2 with
    | nil =>
      simp only [List.nil_append, List.cons_append, List.cons.injEq] at h
      exact absurd (by rw [← h.1]; exact List.mem_cons_self _ _) h1
    | cons b l2 =>
      simp only [List.cons_append, List.cons.injEq] at h
      obtain ⟨hab, hrest⟩ := h
      have h1' : c ∉ l1 := fun hc => h1 (List.mem_cons_of_mem _ hc)
      have h2' : c ∉ l2 := fun hc => h2 (List.mem_cons_of_mem _ hc)
      obtain ⟨hl, hr⟩ := ih l2 r1 r2 h1' h2' hrest
      exact ⟨by rw [hab, hl], hr⟩

theorem name_chars (ns n : String) :
    (ns ++ "-" ++ n).toList = ns.toList ++ '-' :: n.toList := by
  simp [String.toList]

/-- When the registration name determines the resource: same namespace, same
resource name, or namespaces without "-". -/
theorem name_injective (ns1 n1 ns2 n2 : String)
    (hside : ns1 = ns2 ∨ n1 = n2 ∨ ('-' ∉ ns1.toList ∧ '-' ∉ ns2.toList))
    (h : ns1 ++ "-" ++ n1 = ns2 ++ "-" ++ n2) : ns1 = ns2 ∧ n1 = n2 := by
  have hl : ns1.toList ++ '-' :: n1.toList = ns2.toList ++ '-' :: n2.toList := by
    rw [← name_chars, ← name_chars, h]
  rcases hside with hns | hn | ⟨h1, h2⟩
  · subst hns
    have := List.append_cancel_left hl
    simp only [List.cons.injEq, true_and] at this
    exact ⟨rfl, String.ext this⟩
  · subst hn
    have h' : (ns1.toList ++ ['-']) ++ n1.toList = (ns2.toList ++ ['-']) ++ n1.toList := by
      simpa using hl
    have := List.append_cancel_right (List.append_cancel_right h')
    exact ⟨String.ext this, rfl⟩
  · obtain ⟨ha, hb⟩ := split_at_first '-' _ _ _ _ h1 h2 hl
    exact ⟨String.ext ha, String.ext hb⟩

/-- C13 (amended): the registration name namespace + "-" + resourceName is the
key of the published map and of the persisted file.  A successful `RegisterSpec`
for a resource leaves the record of every other registration name, and every
file at another path, as they were.  Two different resources have different
registration names when they share the namespace, or share the resource name,
or when neither namespace contains "-". -/
theorem registration_name_key (L : Lib) (W : World) (fuel : Nat) (srv : Server) (disk : Disk)
    (a : OpenAPISpec) (url : String) (srv' : Server) (disk' : Disk)
    (h : RegisterSpec L W fuel srv disk a = some (Except.ok url, srv', disk')) :
    (∀ b : OpenAPISpec, b.Namespace ++ "-" ++ b.Name ≠ a.Namespace ++ "-" ++ a.Name →
      mapGet (b.Namespace ++ "-" ++ b.Name) srv'.specs =
        mapGet (b.Namespace ++ "-" ++ b.Name) srv.specs) ∧
    (∀ path, path ≠ W.join srv.specDirectory (a.Namespace ++ "-" ++ a.Name ++ ".json") →
      mapGet path disk' = mapGet path disk) ∧
    (∀ b : OpenAPISpec,
      (a.Namespace = b.Namespace ∨ a.Name = b.Name ∨
        ('-' ∉ a.Namespace.toList ∧ '-' ∉ b.Namespace.toList)) →
      (a.Namespace, a.Name) ≠ (b.Namespace, b.Name) →
      b.Namespace ++ "-" ++ b.Name ≠ a.Namespace ++ "-" ++ a.Name) := by
  refine ⟨?_, ?_, ?_⟩
  · intro b hb
    rcases RegisterSpec_cases L W fuel srv disk a _ srv' disk' h with
      ⟨_, hr, _⟩ | ⟨_, _, _, _, _, hs, _⟩
    · cases hr
    · rw [hs]
      exact mapGet_mapSet_ne _ _ hb
  · intro path hpath
    rcases RegisterSpec_cases L W fuel srv disk a _ srv' disk' h with
      ⟨_, hr, _⟩ | ⟨_, _, _, _, _, _, hd⟩
    · cases hr
    · rw [hd]
      exact mapGet_mapSet_ne _ _ hpath
  · intro b hside hne heq
    obtain ⟨h1, h2⟩ := name_injective _ _ _ _ hside heq.symm
    exact hne (by rw [h1, h2])

/-- Witness of the amended C13: registering `teamASpec` leaves the record
`ns1-pet` as it was, and the resource `a-pets` of the same namespace `team-a`
has another registration name. -/
theorem registration_name_key_witness :
    RegisterSpec sampleLib sampleWorld 0 sampleServer [] teamASpec =
      some (Except.ok "http://redokube.team-a.svc:8080/docs/team-a-pets", serverAfterTeamA,
        [("/tmp/redokube-specs/team-a-pets.json", "spec of team-a/pets")]) ∧
    mapGet (urlSpec.Namespace ++ "-" ++ urlSpec.Name) serverAfterTeamA.specs =
      mapGet (urlSpec.Namespace ++ "-" ++ urlSpec.Name) sampleServer.specs ∧
    "team-a" ++ "-" ++ "a-pets" ≠ teamASpec.Namespace ++ "-" ++ teamASpec.Name :=
  ⟨rfl,
    (registration_name_key sampleLib sampleWorld 0 sampleServer [] teamASpec _ _ _ rfl).1
      urlSpec (by decide),
    (registration_name_key sampleLib sampleWorld 0 sampleServer [] teamASpec _ _ _ rfl).2.2
      { teamBSpec with Namespace := "team-a" } (Or.inl rfl) (by decide)⟩

/-- C13 as stated fails: the resources (`team-a`, `pets`) and (`team`, `a-pets`)
differ and have the same registration name `team-a-pets`; both registrations
succeed, and the second replaces the record and the file of the first. -/
theorem registration_name_key_counterexample :
    (teamASpec.Namespace, teamASpec.Name) ≠ (teamBSpec.Namespace, teamBSpec.Name) ∧
    teamASpec.Namespace ++ "-" ++ teamASpec.Name = teamBSpec.Namespace ++ "-" ++ teamBSpec.Name ∧
    RegisterSpec sampleLib sampleWorld 0 sampleServer [] teamASpec =
      some (Except.ok "http://redokube.team-a.svc:8080/docs/team-a-pets", serverAfterTeamA,
        [("/tmp/redokube-specs/team-a-pets.json", "spec of team-a/pets")]) ∧
    RegisterSpec sampleLib sampleWorld 0 serverAfterTeamA
        [("/tmp/redokube-specs/team-a-pets.json", "spec of team-a/pets")] teamBSpec =
      some (Except.ok "http://redokube.team.svc:8080/docs/team-a-pets", serverAfterTeamB,
        [("/tmp/redokube-specs/team-a-pets.json", "spec of team/a-pets")]) ∧
    (mapGet "team-a-pets" serverAfterTeamA.specs).map SpecInfo.Title = some "Team A pets" ∧
    (mapGet "team-a-pets" serverAfterTeamB.specs).map SpecInfo.Title = some "Team pets" :=
  ⟨by decide, by decide, rfl, rfl, rfl, rfl⟩

end RedoKube

